import Mathlib

/-!
# alertsforge: the alert buffer, its ingest path and its reconcile pass

A shallow embedding of `alertsource/alertmanager.go` (`receiveAlerts`,
`ProcessAlertsBuffer`) and of `alertsink/slack.go` (`SlackSink.SendAlerts`).

Modelling decisions.

* A Go `map[string]string` is a finite map: `LabelSet` is `Finmap`, so two label
  sets are equal exactly when they hold the same pairs.
* The buffer `map[string]*Alert` is an `AList` keyed by fingerprint. The order of
  its entries stands for the (unspecified) order in which Go ranges over the map;
  every theorem holds for every order. Writing through a stored pointer
  (`a.AlertsBuffer[k].EndsAt = ...`) is an update of the entry at key `k`.
* Instants and durations are integers of nanoseconds. A call takes the reading of
  the clock (`time.Now()`) as the argument `now`.
* Package `sharedtools`, the enrichment flow, the Slack client and the Go standard
  library are not part of the sources: they are parameters (`Deps`, `SlackDeps`,
  `enrich`, `sink`) or are modelled from the specification, which is said at the
  definition.
* Incoming alerts are values: each one owns its label map, as the alerts decoded
  by `AlertWebhook` do. The label map of an incoming alert may be the nil map
  (`Incoming`); reading it gives what the empty map gives, writing to it panics.
  `receiveAlerts` is the only place of the sources that writes to such a map.
* The goroutines of a pass are run where the scan starts them, so `alertsToSend` is
  modelled up to its order; the theorems speak of membership in it only, and the
  sink is an arbitrary function of the batch.
-/

namespace AlertsForge

/-- Label sets and annotations: Go `map[string]string`. -/
abbrev LabelSet := Finmap (fun _ : String => String)

/-- Wall-clock instants, in nanoseconds. -/
abbrev Time := Int

/-- Go `time.Duration`: a signed 64-bit count of nanoseconds. -/
abbrev Duration := Int

/-- Modelled from the spec: the alert status of package `sharedtools`, one of
Pending, Firing, Resolved (section 3). -/
inductive AlertStatus where
  | Pending
  | Firing
  | Resolved
deriving DecidableEq, Repr

/-- Modelled from the spec: `sharedtools.Alert` (section 3), with the fields the
sources read and write. -/
structure Alert where
  Labels : LabelSet
  Annotations : LabelSet
  StartsAt : Time
  EndsAt : Time
  Status : AlertStatus
  Fingerprint : String
  LastReceiveAt : Time
  LastSinkAt : Time
deriving DecidableEq

/-- The alert buffer `AlertManager.AlertsBuffer`, keyed by fingerprint. -/
abbrev Buffer := AList (fun _ : String => Alert)

/-- The constant `DoNotSendResolved` of `alertmanager.go`. -/
def DoNotSendResolved : String := "__alertsforge_do_not_send_resolved"

/-- The largest `time.Duration` (`1<<63 - 1` nanoseconds). -/
def maxDuration : Duration := 9223372036854775807

/-- The smallest `time.Duration` (`-1 << 63` nanoseconds). -/
def minDuration : Duration := -9223372036854775808

/-- Go `time.Since(t)` read at the instant `now`: `now.Sub(t)`, which saturates at
the largest and the smallest duration. -/
def Since (now t : Time) : Duration :=
  if maxDuration < now - t then maxDuration
  else if now - t < minDuration then minDuration
  else now - t

/-- The functions of package `sharedtools` and of the Go standard library that the
alert manager calls and whose code is not part of the sources. -/
structure Deps where
  /-- `sharedtools.LabelSetToFingerprint`. -/
  LabelSetToFingerprint : LabelSet → String
  /-- `time.ParseDuration`; `none` when it returns an error. -/
  ParseDuration : String → Option Duration
  /-- `time.Duration.String`. -/
  DurationString : Duration → String
  /-- `time.Time.String`. -/
  TimeString : Time → String

/-- What a call reads from the runbook and from the process environment. -/
structure Env where
  /-- The `LabelsSelector` of each entry of `runbooks.Silences`. -/
  Silences : List LabelSet
  /-- The value of `os.Getenv("AF_RESINK_TIME")`. -/
  AF_RESINK_TIME : String
  /-- The value of `os.Getenv("AF_DEFAULT_RESOLVE_DELAY")`. -/
  AF_DEFAULT_RESOLVE_DELAY : String

/-- Modelled from the spec: `sharedtools.MatchLabels` (section 4.1), true iff every
pair of the selector is present in the labels with an equal value. -/
def MatchLabels (labels selector : LabelSet) : Bool :=
  selector.all (fun k v => decide (labels.lookup k = some v))

/-- The silence loop of `receiveAlerts` (lines 256-261). -/
def silenced (env : Env) (alert : Alert) : Bool :=
  env.Silences.any (fun selector => MatchLabels alert.Labels selector)

/-- The fingerprint `receiveAlerts` assigns (lines 264-266): that of a copy of the
labels from which the key `uid` is deleted. -/
def ingestFingerprint (D : Deps) (alert : Alert) : String :=
  D.LabelSetToFingerprint (alert.Labels.erase "uid")

/-- A value of type `sharedtools.Alert` as `receiveAlerts` is handed it. Its `Labels`
field is a Go map and may be the nil map, here `none`: an alert decoded from a JSON
object that has no `labels` member. -/
structure Incoming where
  Labels : Option LabelSet
  Annotations : LabelSet
  StartsAt : Time
  EndsAt : Time
  Status : AlertStatus
  Fingerprint : String
  LastReceiveAt : Time
  LastSinkAt : Time
deriving DecidableEq

/-- What reading the fields of an incoming alert gives: the nil map reads as the
empty map (lookups find nothing, `delete` does nothing, a range visits nothing). -/
def Incoming.read (a : Incoming) : Alert where
  Labels := a.Labels.getD ∅
  Annotations := a.Annotations
  StartsAt := a.StartsAt
  EndsAt := a.EndsAt
  Status := a.Status
  Fingerprint := a.Fingerprint
  LastReceiveAt := a.LastReceiveAt
  LastSinkAt := a.LastSinkAt

/-- The assignment `labels[k] = v` of Go: `none` is the panic `assignment to entry in
nil map`. -/
def assignLabel (labelsNil : Bool) (labels : LabelSet) (k v : String) : Option LabelSet :=
  if labelsNil then none else some (labels.insert k v)

/-- The resolve delay of `receiveAlerts` (lines 269-280) on an alert whose `Labels`
map is nil when `labelsNil` holds; `none` when the assignment of line 274 or of line
278 panics, which happens while `AlertBufferMutex` is locked (line 268). -/
def applyResolveDelay (D : Deps) (env : Env) (labelsNil : Bool) (alert : Alert) :
    Option Alert :=
  match alert.Labels.lookup "alertsforge_delay_resolve" with
  | some alertsforge_delay_resolve =>
    match D.ParseDuration alertsforge_delay_resolve with
    | none => some alert
    | some delayDuration =>
      match assignLabel labelsNil alert.Labels "alertsForge_delayed_resolve"
          (D.TimeString (alert.EndsAt + delayDuration)) with
      | none => none
      | some labels =>
        some { alert with Labels := labels, EndsAt := alert.EndsAt + delayDuration }
  | none =>
    match D.ParseDuration env.AF_DEFAULT_RESOLVE_DELAY with
    | some delayDuration =>
      match assignLabel labelsNil alert.Labels "alertsForge_delayed_resolve"
          (D.DurationString delayDuration) with
      | none => none
      | some labels =>
        some { alert with Labels := labels, EndsAt := alert.EndsAt + delayDuration }
    | none => some alert

/-- The incoming alert as `receiveAlerts` has prepared it when it reaches the
buffer (lines 263-280); `none` when the resolve delay panics. -/
def prepare (D : Deps) (env : Env) (now : Time) (alert : Incoming) : Option Alert :=
  applyResolveDelay D env alert.Labels.isNone
    { alert.read with
      LastReceiveAt := now, Fingerprint := ingestFingerprint D alert.read }

/-- One iteration of the loop of `receiveAlerts` (lines 253-290); `none` when it
panics, which leaves the buffer as it was and `AlertBufferMutex` locked. -/
def receiveAlert (D : Deps) (env : Env) (now : Time) (buffer : Buffer) (alert : Incoming) :
    Option Buffer :=
  if silenced env alert.read then some buffer
  else
    match prepare D env now alert with
    | none => none
    | some alert =>
      match buffer.lookup alert.Fingerprint with
      | some existing =>
        some (buffer.insert alert.Fingerprint
          { existing with EndsAt := alert.EndsAt, LastReceiveAt := now })
      | none =>
        some (buffer.insert alert.Fingerprint { alert with Status := AlertStatus.Pending })

/-- How a call of `receiveAlerts` ends, and the buffer it leaves: it returns, or it
panics in the resolve delay of one alert. After a panic the alerts before that one
are ingested, the others are not, and `AlertBufferMutex` stays locked, so that no
later call that locks it returns. -/
inductive Outcome where
  | returned (buffer : Buffer)
  | panicked (buffer : Buffer)

/-- The buffer a call of `receiveAlerts` leaves. -/
def Outcome.buffer : Outcome → Buffer
  | Outcome.returned buffer => buffer
  | Outcome.panicked buffer => buffer

/-- Whether the call of `receiveAlerts` panicked. -/
def Outcome.hasPanicked : Outcome → Bool
  | Outcome.returned _ => false
  | Outcome.panicked _ => true

/-- `AlertManager.receiveAlerts` (lines 251-291). -/
def receiveAlerts (D : Deps) (env : Env) (now : Time) :
    List Incoming → Buffer → Outcome
  | [], buffer => Outcome.returned buffer
  | alert :: rest, buffer =>
    match receiveAlert D env now buffer alert with
    | some updated => receiveAlerts D env now rest updated
    | none => Outcome.panicked buffer

/-- What a sink returns: `accepted`, `resolved` and `errors` of
`SinkInterface.SendAlerts`. -/
structure SinkResult where
  accepted : List String
  resolved : List String
  errors : List String
deriving DecidableEq

/-- The state of the scan loop of `ProcessAlertsBuffer`: the live buffer and
`alertsToSend`. -/
structure ScanState where
  buffer : Buffer
  alertsToSend : List Alert

/-- One iteration of the scan loop of `ProcessAlertsBuffer` (lines 113-166) on the
snapshot entry `alert`, the body of each goroutine run where it is started.
`enrich` gives the labels of the copy after `StartEnrichmentFlow`. -/
def scanEntry (D : Deps) (env : Env) (now : Time) (enrich : Alert → LabelSet)
    (st : ScanState) (alert : Alert) : ScanState :=
  let alertCopy := alert
  if alertCopy.EndsAt < now then
    if alertCopy.Status = AlertStatus.Pending then
      { st with buffer := st.buffer.erase alertCopy.Fingerprint }
    else
      let alertCopy := { alertCopy with Status := AlertStatus.Resolved }
      if DoNotSendResolved ∉ alertCopy.Labels then
        { st with alertsToSend := st.alertsToSend ++ [alertCopy] }
      else st
  else
    let st1 :=
      if alertCopy.Status = AlertStatus.Pending then
        let enriched := { alertCopy with Labels := enrich alertCopy }
        { buffer := st.buffer.insert enriched.Fingerprint enriched
          alertsToSend := st.alertsToSend ++ [enriched] }
      else st
    match D.ParseDuration env.AF_RESINK_TIME with
    | some resink =>
      if alertCopy.Status = AlertStatus.Firing ∧ resink < Since now alertCopy.LastSinkAt then
        { st1 with alertsToSend := st1.alertsToSend ++ [alertCopy] }
      else st1
    | none => st1

/-- The snapshot `AlertsBufferCopy` (lines 99-104), as the list of its alerts in
the order the scan ranges over them. -/
def snapshot (buffer : Buffer) : List Alert :=
  buffer.entries.map (fun e => e.2)

/-- The scan loop over a list of snapshot entries. -/
def scan (D : Deps) (env : Env) (now : Time) (enrich : Alert → LabelSet)
    (entries : List Alert) (st : ScanState) : ScanState :=
  entries.foldl (scanEntry D env now enrich) st

/-- The body of the loop over `accepted` (lines 191-202). -/
def markAccepted (now : Time) (buffer : Buffer) (fingerprint : String) : Buffer :=
  match buffer.lookup fingerprint with
  | some alert =>
    let alert :=
      if alert.Status = AlertStatus.Firing then alert
      else { alert with Status := AlertStatus.Firing }
    buffer.insert fingerprint { alert with LastSinkAt := now }
  | none => buffer

/-- The two loops over the outcome of the sink (lines 190-207). -/
def applyOutcome (now : Time) (r : SinkResult) (buffer : Buffer) : Buffer :=
  r.resolved.foldl (fun b fingerprint => b.erase fingerprint)
    (r.accepted.foldl (markAccepted now) buffer)

/-- What a reconcile pass leaves: the live buffer, the batch `alertsToSend`, the
outcome of the sink when it was called, and the returned errors. -/
structure PassResult where
  buffer : Buffer
  alertsToSend : List Alert
  outcome : Option SinkResult
  errors : List String

/-- The dispatch and the reconciliation of outcomes (lines 177-210). -/
def dispatch (now : Time) (sink : List Alert → SinkResult) (st : ScanState) : PassResult :=
  if 0 < st.alertsToSend.length then
    let r := sink st.alertsToSend
    { buffer := applyOutcome now r st.buffer
      alertsToSend := st.alertsToSend
      outcome := some r
      errors := r.errors }
  else
    { buffer := st.buffer, alertsToSend := st.alertsToSend, outcome := none, errors := [] }

/-- `AlertManager.ProcessAlertsBuffer` (lines 96-227) run at the instant `now` with
no ingest in between: snapshot, scan, dispatch to `sink`, reconcile outcomes. -/
def ProcessAlertsBuffer (D : Deps) (env : Env) (now : Time) (enrich : Alert → LabelSet)
    (sink : List Alert → SinkResult) (buffer : Buffer) : PassResult :=
  dispatch now sink (scan D env now enrich (snapshot buffer) ⟨buffer, []⟩)

/-- A reconcile pass during which `receiveAlerts` runs once and returns, at the
instant `tIngest` on `alerts`, after the snapshot is taken and after the first `p`
snapshot entries are scanned (for `p` at least the size of the snapshot: after the
scan, before the outcomes of the sink are written back). The result is `none` when
that call of `receiveAlerts` panics: it then makes no upsert and leaves the mutex
locked, and there is no pass interleaved with a completed ingest. -/
def ProcessAlertsBufferInterleaved (D : Deps) (env : Env) (now : Time)
    (enrich : Alert → LabelSet) (sink : List Alert → SinkResult)
    (p : Nat) (tIngest : Time) (alerts : List Incoming) (buffer : Buffer) :
    Option PassResult :=
  let snap := snapshot buffer
  let st1 := scan D env now enrich (snap.take p) ⟨buffer, []⟩
  match receiveAlerts D env tIngest alerts st1.buffer with
  | Outcome.returned live =>
    some (dispatch now sink (scan D env now enrich (snap.drop p) { st1 with buffer := live }))
  | Outcome.panicked _ => none

/-! ## The Slack sink -/

/-- The functions `SlackSink.SendAlerts` calls and whose code is not part of the
sources. -/
structure SlackDeps where
  /-- `sharedtools.TemplateString(o.runbooks.SlackMessage.Channel, alert)`: the
  rendered channel list, or the error. -/
  TemplateChannel : Alert → Except String String
  /-- `sharedtools.MustTemplateString(o.runbooks.SlackMessage.Message, alert, ...)`. -/
  MustTemplateMessage : Alert → String
  /-- The error of `o.SlackClient.SendMessage(channel, text)`, `none` for `nil`. -/
  SendMessage : String → String → Option String

/-- The scanning loop of `Split`: `cur` holds the characters of the current piece,
last one first. -/
def splitAux (sep : Char) : List Char → List Char → List (List Char)
  | [], cur => [cur.reverse]
  | c :: cs, cur =>
    if c = sep then cur.reverse :: splitAux sep cs [] else splitAux sep cs (c :: cur)

/-- Go `strings.Split(s, sep)` for a separator of one character. -/
def Split (s : String) (sep : Char) : List String :=
  (splitAux sep s.data []).map String.mk

/-- The loop of `RemoveDuplicateFromSlice`, `seen` being the values met so far. -/
def removeDuplicateAux (seen : List String) : List String → List String
  | [] => []
  | x :: xs =>
    if x ∈ seen then removeDuplicateAux seen xs
    else x :: removeDuplicateAux (x :: seen) xs

/-- Modelled from the spec: `sharedtools.RemoveDuplicateFromSlice`, which
de-duplicates the rendered targets (section 4.2); the first occurrence of each value
is kept, in the order of the slice. -/
def RemoveDuplicateFromSlice (xs : List String) : List String :=
  removeDuplicateAux [] xs

/-- The variables the fan-out loop of `SendAlerts` (lines 40-45) writes: `err` and
`errors`. -/
structure FanOut where
  err : Option String
  errors : List String

/-- One iteration of the fan-out loop: `err` is assigned the error of this send. -/
def sendTo (S : SlackDeps) (text : String) (st : FanOut) (channel : String) : FanOut :=
  match S.SendMessage channel text with
  | some e => { err := some e, errors := st.errors ++ [e] }
  | none => { err := none, errors := st.errors }

/-- One iteration of the loop of `SlackSink.SendAlerts` (lines 27-53). -/
def sendAlert (S : SlackDeps) (r : SinkResult) (alert : Alert) : SinkResult :=
  match S.TemplateChannel alert with
  | Except.error err =>
    { r with errors := r.errors ++ [err], accepted := r.accepted ++ [alert.Fingerprint] }
  | Except.ok channel =>
    let text := S.MustTemplateMessage alert
    let channels := Split channel ','
    let deduplicatedChannels := RemoveDuplicateFromSlice channels
    let out := deduplicatedChannels.foldl (sendTo S text) ⟨none, r.errors⟩
    if out.err = none then
      if alert.Status = AlertStatus.Resolved then
        { r with errors := out.errors, resolved := r.resolved ++ [alert.Fingerprint] }
      else
        { r with errors := out.errors, accepted := r.accepted ++ [alert.Fingerprint] }
    else { r with errors := out.errors }

/-- `SlackSink.SendAlerts` (lines 26-56). -/
def SendAlerts (S : SlackDeps) (alerts : List Alert) : SinkResult :=
  alerts.foldl (sendAlert S) ⟨[], [], []⟩

/-! ## A fingerprint without collisions -/

/-- The order of label names: that of their characters, as Go compares strings. -/
def nameLE (a b : String) : Prop := a.data ≤ b.data

instance nameLE_decidable : DecidableRel nameLE := fun a b =>
  inferInstanceAs (Decidable (a.data ≤ b.data))

instance nameLE_total : IsTotal String nameLE := ⟨fun a b => le_total a.data b.data⟩

instance nameLE_trans : IsTrans String nameLE := ⟨fun _ _ _ h1 h2 => le_trans h1 h2⟩

instance nameLE_antisymm : IsAntisymm String nameLE :=
  ⟨fun _ _ h1 h2 => String.ext (le_antisymm h1 h2)⟩

/-- The label names of a label set, sorted. -/
def sortedNames (labels : LabelSet) : List String :=
  Quotient.liftOn labels.keys.val (List.insertionSort nameLE) (fun a b h =>
    List.eq_of_perm_of_sorted
      ((List.perm_insertionSort nameLE a).trans
        (h.trans (List.perm_insertionSort nameLE b).symm))
      (List.sorted_insertionSort nameLE a) (List.sorted_insertionSort nameLE b))

/-- Modelled from the spec: `sharedtools.LabelSetToFingerprint`, a deterministic hash
over the key/value pairs of the label set after sorting the keys (section 3). The
hash is idealised as free of collisions: the sorted pairs are written out. -/
def fingerprintOfSorted (labels : LabelSet) : String :=
  String.intercalate ","
    ((sortedNames labels).map (fun k => k ++ "=" ++ (labels.lookup k).getD ""))

/-- A `Deps` for concrete runs: the fingerprint without collisions, and the
durations `5m` and `30s` of the scenarios of the specification (section 8); every
other string is not a duration. -/
def concreteDeps : Deps where
  LabelSetToFingerprint := fingerprintOfSorted
  ParseDuration := fun s =>
    if s = "5m" then some 300000000000 else if s = "30s" then some 30000000000 else none
  DurationString := fun d =>
    if d = 300000000000 then "5m0s" else if d = 30000000000 then "30s" else "0s"
  TimeString := fun t => toString t

/-! ## Concrete data: the scenarios of section 8 -/

/-- An environment with the silence of scenario 2, the re-sink interval of scenario 6
and no default resolve delay. -/
def envPlain : Env where
  Silences := [Finmap.singleton "severity" "info"]
  AF_RESINK_TIME := "30s"
  AF_DEFAULT_RESOLVE_DELAY := ""

/-- The environment of scenario 4: a default resolve delay of five minutes. -/
def envDelay : Env where
  Silences := [Finmap.singleton "severity" "info"]
  AF_RESINK_TIME := "30s"
  AF_DEFAULT_RESOLVE_DELAY := "5m"

/-- The instant or the duration of `n` seconds, in nanoseconds. -/
def seconds (n : Int) : Int := n * 1000000000

/-- An incoming alert with the given labels that ends at `endsAt`. -/
def incoming (labels : LabelSet) (endsAt : Time) : Incoming where
  Labels := some labels
  Annotations := ∅
  StartsAt := 0
  EndsAt := endsAt
  Status := AlertStatus.Firing
  Fingerprint := ""
  LastReceiveAt := 0
  LastSinkAt := 0

/-- An incoming alert decoded from a JSON object without a `labels` member: its
`Labels` map is nil. -/
def incomingNoLabels (endsAt : Time) : Incoming where
  Labels := none
  Annotations := ∅
  StartsAt := 0
  EndsAt := endsAt
  Status := AlertStatus.Firing
  Fingerprint := ""
  LastReceiveAt := 0
  LastSinkAt := 0

/-- The labels `svc:x, uid:a` of scenario 3. -/
def labelsUidA : LabelSet := (Finmap.singleton "svc" "x").insert "uid" "a"

/-- The labels `svc:x, uid:b` of scenario 3. -/
def labelsUidB : LabelSet := (Finmap.singleton "svc" "x").insert "uid" "b"

/-- The entry the first ingest of scenario 3 stores, at the second 10. -/
def entryUidA : Alert :=
  { (incoming labelsUidA (seconds 600)).read with
    Status := AlertStatus.Pending, Fingerprint := "svc=x", LastReceiveAt := seconds 10 }

/-- The buffer after the first ingest of scenario 3, at the second 10. -/
def bufferUidA : Buffer :=
  (receiveAlerts concreteDeps envPlain (seconds 10) [incoming labelsUidA (seconds 600)]
    ∅).buffer

/-- An enrichment that attaches one label, as the image enricher of section 4.3
does. -/
def enrichScreenshot (alert : Alert) : LabelSet :=
  alert.Labels.insert "screenshot" "stored"

/-- A Slack client for which every channel template renders to two targets and
every send succeeds. -/
def slackOk : SlackDeps where
  TemplateChannel := fun _ => Except.ok "alerts,oncall"
  MustTemplateMessage := fun alert => alert.Fingerprint
  SendMessage := fun _ _ => none

/-- The entry of scenario 3 once the sink has accepted it, at the second 20. -/
def entryFiring : Alert :=
  { entryUidA with
    Labels := enrichScreenshot entryUidA, Status := AlertStatus.Firing,
    LastSinkAt := seconds 20 }

/-- The buffer of scenario 3 once the sink has accepted its entry. -/
def bufferFiring : Buffer :=
  (ProcessAlertsBuffer concreteDeps envPlain (seconds 20) enrichScreenshot
    (SendAlerts slackOk) bufferUidA).buffer

/-- An entry that carries `__alertsforge_do_not_send_resolved` (scenario 5), Firing
since the second 20 and ending at the second 600. -/
def entryNoResolved : Alert where
  Labels := (Finmap.singleton "svc" "y").insert DoNotSendResolved "true"
  Annotations := ∅
  StartsAt := 0
  EndsAt := seconds 600
  Status := AlertStatus.Firing
  Fingerprint := "quiet"
  LastReceiveAt := seconds 10
  LastSinkAt := seconds 20

/-- The buffer of scenario 5: the one entry that carries
`__alertsforge_do_not_send_resolved`. -/
def bufferNoResolved : Buffer := AList.singleton "quiet" entryNoResolved

/-- A sink that reports every alert it is given, in `resolved` when its Status is
Resolved and in `accepted` otherwise. -/
def sinkAll (alerts : List Alert) : SinkResult where
  accepted := (alerts.filter (fun x => decide (x.Status ≠ AlertStatus.Resolved))).map
    (fun x => x.Fingerprint)
  resolved := (alerts.filter (fun x => decide (x.Status = AlertStatus.Resolved))).map
    (fun x => x.Fingerprint)
  errors := []

/-- A Slack client for which the channel template renders to `alerts,oncall`, the
send to `alerts` succeeds and the send to `oncall` fails. -/
def slackLastFails : SlackDeps where
  TemplateChannel := fun _ => Except.ok "alerts,oncall"
  MustTemplateMessage := fun alert => alert.Fingerprint
  SendMessage := fun channel _ => if channel = "oncall" then some "channel_not_found" else none

/-- The same client when the template lists the two targets in the other order. -/
def slackFirstFails : SlackDeps where
  TemplateChannel := fun _ => Except.ok "oncall,alerts"
  MustTemplateMessage := fun alert => alert.Fingerprint
  SendMessage := fun channel _ => if channel = "oncall" then some "channel_not_found" else none

/-- The buffer after the ingest of scenario 4: the labels `svc:x` received under a
default resolve delay of five minutes. -/
def bufferDelayed : Buffer :=
  (receiveAlerts concreteDeps envDelay (seconds 10)
    [incoming (Finmap.singleton "svc" "x") (seconds 600)] ∅).buffer

/-- The entry the ingest of scenario 4 stores: ending five minutes later, and with
the label `alertsForge_delayed_resolve` added to the labels received. -/
def entryDelayed : Alert where
  Labels := (Finmap.singleton "svc" "x").insert "alertsForge_delayed_resolve" "5m0s"
  Annotations := ∅
  StartsAt := 0
  EndsAt := seconds 900
  Status := AlertStatus.Pending
  Fingerprint := "svc=x"
  LastReceiveAt := seconds 10
  LastSinkAt := 0

/-- The Firing entry of scenario 3 after an ingest at the second 51 moved its end to
the second 900 and the pass of the second 51 re-sunk it. -/
def entryResunk : Alert :=
  { entryFiring with
    EndsAt := seconds 900, LastReceiveAt := seconds 51, LastSinkAt := seconds 51 }

/-- The result of the pass of the second 51 over the buffer of scenario 3 when the
alert of scenario 3 is ingested again, ending at the second 900, after the scan and
before the outcome of the sink is written back. -/
def passResunk : PassResult :=
  dispatch (seconds 51) sinkAll
    { scan concreteDeps envPlain (seconds 51) enrichScreenshot (snapshot bufferFiring)
        ⟨bufferFiring, []⟩ with
      buffer := (receiveAlerts concreteDeps envPlain (seconds 51)
        [incoming labelsUidA (seconds 900)]
        (scan concreteDeps envPlain (seconds 51) enrichScreenshot (snapshot bufferFiring)
          ⟨bufferFiring, []⟩).buffer).buffer }

/-- The entry stored for an alert without labels that is received at the second 10
with no default resolve delay configured. -/
def entryNoLabels : Alert :=
  { (incomingNoLabels (seconds 600)).read with
    Status := AlertStatus.Pending, Fingerprint := "", LastReceiveAt := seconds 10 }

/-- The buffer that holds the alert without labels. -/
def bufferNoLabels : Buffer :=
  (receiveAlerts concreteDeps envPlain (seconds 10) [incomingNoLabels (seconds 600)]
    ∅).buffer

/-- Every key of the buffer is the fingerprint `receiveAlerts` computes for some
label set. -/
def KeysFromIngest (D : Deps) (buffer : Buffer) : Prop :=
  ∀ k ∈ buffer.keys, ∃ labels : LabelSet, k = D.LabelSetToFingerprint (labels.erase "uid")

/-- Two values of an entry that differ at most in `Status` and `LastSinkAt`. -/
def AgreeOutsideSink (e1 e2 : Alert) : Prop :=
  e2.Labels = e1.Labels ∧ e2.Annotations = e1.Annotations ∧ e2.StartsAt = e1.StartsAt ∧
  e2.EndsAt = e1.EndsAt ∧ e2.Fingerprint = e1.Fingerprint ∧
  e2.LastReceiveAt = e1.LastReceiveAt

/-- The invariant of the buffer stated in the data model (section 3): every entry
is stored under its own `Fingerprint`. -/
def WF (buffer : Buffer) : Prop :=
  ∀ x ∈ buffer.entries, x.2.Fingerprint = x.1

instance WF_decidable (buffer : Buffer) : Decidable (WF buffer) :=
  inferInstanceAs (Decidable (∀ x ∈ buffer.entries, x.2.Fingerprint = x.1))

/-- The invariant as section 8 writes it: every key is the fingerprint of the labels
of its entry without `uid`. -/
def KeyIsLabelFingerprint (D : Deps) (buffer : Buffer) : Prop :=
  ∀ x ∈ buffer.entries, x.1 = D.LabelSetToFingerprint (x.2.Labels.erase "uid")

instance KeyIsLabelFingerprint_decidable (D : Deps) (buffer : Buffer) :
    Decidable (KeyIsLabelFingerprint D buffer) :=
  inferInstanceAs
    (Decidable (∀ x ∈ buffer.entries, x.1 = D.LabelSetToFingerprint (x.2.Labels.erase "uid")))

/-- The buffers reachable from the empty buffer by calls of `receiveAlerts` and of
`ProcessAlertsBuffer`, each with its own environment, clock reading, enrichment and
sink. The buffer a call of `receiveAlerts` leaves when it panics is counted as
reachable too. -/
inductive Reachable (D : Deps) : Buffer → Prop
  | empty : Reachable D ∅
  | receive (env : Env) (now : Time) (alerts : List Incoming) (buffer : Buffer) :
      Reachable D buffer → Reachable D (receiveAlerts D env now alerts buffer).buffer
  | process (env : Env) (now : Time) (enrich : Alert → LabelSet)
      (sink : List Alert → SinkResult) (buffer : Buffer) :
      Reachable D buffer →
      Reachable D (ProcessAlertsBuffer D env now enrich sink buffer).buffer

/-! ## Ingest -/

theorem applyResolveDelay_Fingerprint (D : Deps) (env : Env) (labelsNil : Bool)
    (alert prepared : Alert) (h : applyResolveDelay D env labelsNil alert = some prepared) :
    prepared.Fingerprint = alert.Fingerprint := by
  unfold applyResolveDelay assignLabel at h
  cases labelsNil <;> cases hl : alert.Labels.lookup "alertsforge_delay_resolve" <;>
    simp only [hl] at h
  all_goals
    split at h <;> simp at h <;> rw [← h]

theorem prepare_Fingerprint (D : Deps) (env : Env) (now : Time) (alert : Incoming)
    (prepared : Alert) (h : prepare D env now alert = some prepared) :
    prepared.Fingerprint = ingestFingerprint D alert.read := by
  unfold prepare at h
  exact applyResolveDelay_Fingerprint D env _ _ prepared h

/-- The resolve delay panics exactly for an alert whose label map is nil when a
default resolve delay is configured and parses. -/
theorem prepare_eq_none_iff (D : Deps) (env : Env) (now : Time) (alert : Incoming) :
    prepare D env now alert = none ↔
      alert.Labels = none ∧ (D.ParseDuration env.AF_DEFAULT_RESOLVE_DELAY).isSome = true := by
  unfold prepare applyResolveDelay assignLabel
  cases hl : alert.Labels with
  | none =>
    have hread : (Incoming.read alert).Labels.lookup "alertsforge_delay_resolve" = none := by
      simp [Incoming.read, hl]
    simp only [hread]
    cases hd : D.ParseDuration env.AF_DEFAULT_RESOLVE_DELAY <;> simp
  | some labels =>
    simp only [Option.isNone_some]
    cases (Incoming.read alert).Labels.lookup "alertsforge_delay_resolve" with
    | none => cases hd : D.ParseDuration env.AF_DEFAULT_RESOLVE_DELAY <;> simp [hd]
    | some text => cases hd : D.ParseDuration text <;> simp [hd]

theorem receiveAlert_silenced (D : Deps) (env : Env) (now : Time) (buffer : Buffer)
    (alert : Incoming) (hs : silenced env alert.read = true) :
    receiveAlert D env now buffer alert = some buffer := by
  simp [receiveAlert, hs]

theorem receiveAlert_of_panic (D : Deps) (env : Env) (now : Time) (buffer : Buffer)
    (alert : Incoming) (hs : silenced env alert.read = false)
    (hp : prepare D env now alert = none) :
    receiveAlert D env now buffer alert = none := by
  simp [receiveAlert, hs, hp]

theorem receiveAlert_of_lookup_some (D : Deps) (env : Env) (now : Time) (buffer : Buffer)
    (alert : Incoming) (prepared existing : Alert) (hs : silenced env alert.read = false)
    (hp : prepare D env now alert = some prepared)
    (hk : buffer.lookup (ingestFingerprint D alert.read) = some existing) :
    receiveAlert D env now buffer alert =
      some (buffer.insert (ingestFingerprint D alert.read)
        { existing with EndsAt := prepared.EndsAt, LastReceiveAt := now }) := by
  have hfp := prepare_Fingerprint D env now alert prepared hp
  simp only [receiveAlert, hs, hp, Bool.false_eq_true, if_false]
  split
  · rename_i found hfound
    rw [hfp, hk] at hfound
    cases hfound
    rw [hfp]
  · rename_i hnone
    rw [hfp, hk] at hnone
    cases hnone

theorem receiveAlert_of_lookup_none (D : Deps) (env : Env) (now : Time) (buffer : Buffer)
    (alert : Incoming) (prepared : Alert) (hs : silenced env alert.read = false)
    (hp : prepare D env now alert = some prepared)
    (hk : buffer.lookup (ingestFingerprint D alert.read) = none) :
    receiveAlert D env now buffer alert =
      some (buffer.insert (ingestFingerprint D alert.read)
        { prepared with Status := AlertStatus.Pending }) := by
  have hfp := prepare_Fingerprint D env now alert prepared hp
  simp only [receiveAlert, hs, hp, Bool.false_eq_true, if_false]
  split
  · rename_i found hfound
    rw [hfp, hk] at hfound
    cases hfound
  · rw [hfp]

theorem receiveAlerts_singleton_some (D : Deps) (env : Env) (now : Time)
    (buffer updated : Buffer) (alert : Incoming)
    (h : receiveAlert D env now buffer alert = some updated) :
    receiveAlerts D env now [alert] buffer = Outcome.returned updated := by
  simp [receiveAlerts, h]

theorem receiveAlerts_singleton_none (D : Deps) (env : Env) (now : Time)
    (buffer : Buffer) (alert : Incoming)
    (h : receiveAlert D env now buffer alert = none) :
    receiveAlerts D env now [alert] buffer = Outcome.panicked buffer := by
  simp [receiveAlerts, h]

/-- C1. Re-ingesting an alert that matches no silence and whose fingerprint (over its
labels without `uid`) is already a key of the buffer creates no second entry (the
keys are the same), changes of the existing entry only `EndsAt` and `LastReceiveAt`
(Status, Labels, Annotations, StartsAt, LastSinkAt and Fingerprint are kept) and
leaves every other entry as it was. When the call returns, `EndsAt` is the delayed
end of the alert and `LastReceiveAt` the time of the ingest; when it panics in the
resolve delay, the entry is left as it was. -/
theorem receiveAlerts_existing_frame (D : Deps) (env : Env) (now : Time) (buffer : Buffer)
    (alert : Incoming) (existing : Alert) (hs : silenced env alert.read = false)
    (hk : buffer.lookup (ingestFingerprint D alert.read) = some existing) :
    (∃ updated,
      (receiveAlerts D env now [alert] buffer).buffer.lookup (ingestFingerprint D alert.read)
        = some updated ∧
      updated.Status = existing.Status ∧ updated.Labels = existing.Labels ∧
      updated.Annotations = existing.Annotations ∧ updated.StartsAt = existing.StartsAt ∧
      updated.LastSinkAt = existing.LastSinkAt ∧
      updated.Fingerprint = existing.Fingerprint ∧
      (∀ prepared, prepare D env now alert = some prepared →
        receiveAlerts D env now [alert] buffer =
          Outcome.returned (receiveAlerts D env now [alert] buffer).buffer ∧
        updated.EndsAt = prepared.EndsAt ∧ updated.LastReceiveAt = now) ∧
      (prepare D env now alert = none →
        receiveAlerts D env now [alert] buffer = Outcome.panicked buffer ∧
        updated = existing)) ∧
    (∀ k, k ≠ ingestFingerprint D alert.read →
      (receiveAlerts D env now [alert] buffer).buffer.lookup k = buffer.lookup k) ∧
    (receiveAlerts D env now [alert] buffer).buffer.keys.Perm buffer.keys := by
  cases hp : prepare D env now alert with
  | none =>
    rw [receiveAlerts_singleton_none D env now buffer alert
      (receiveAlert_of_panic D env now buffer alert hs hp)]
    refine ⟨⟨existing, hk, rfl, rfl, rfl, rfl, rfl, rfl, ?_, fun _ => ⟨rfl, rfl⟩⟩, ?_, ?_⟩
    · intro prepared hc
      cases hc
    · intro k _
      rfl
    · exact List.Perm.refl _
  | some prepared =>
    rw [receiveAlerts_singleton_some D env now buffer _ alert
      (receiveAlert_of_lookup_some D env now buffer alert prepared existing hs hp hk)]
    refine ⟨⟨_, AList.lookup_insert _, rfl, rfl, rfl, rfl, rfl, rfl, ?_, ?_⟩, ?_, ?_⟩
    · intro prepared2 hc
      cases hc
      exact ⟨rfl, rfl, rfl⟩
    · intro hc
      cases hc
    · intro k hne
      exact AList.lookup_insert_ne hne
    · show (buffer.insert _ _).keys.Perm buffer.keys
      rw [AList.keys_insert]
      have hmem : ingestFingerprint D alert.read ∈ buffer.keys := by
        rw [← AList.mem_keys, ← AList.lookup_isSome, hk]
        rfl
      exact (List.perm_cons_erase hmem).symm

theorem receiveAlert_lookup_ne (D : Deps) (env : Env) (now : Time) (buffer updated : Buffer)
    (alert : Incoming) (h : receiveAlert D env now buffer alert = some updated)
    (k : String) (hne : k ≠ ingestFingerprint D alert.read) :
    updated.lookup k = buffer.lookup k := by
  cases hs : silenced env alert.read with
  | true =>
    rw [receiveAlert_silenced D env now buffer alert hs] at h
    cases h
    rfl
  | false =>
    cases hp : prepare D env now alert with
    | none =>
      rw [receiveAlert_of_panic D env now buffer alert hs hp] at h
      cases h
    | some prepared =>
      cases hk : buffer.lookup (ingestFingerprint D alert.read) with
      | none =>
        rw [receiveAlert_of_lookup_none D env now buffer alert prepared hs hp hk] at h
        cases h
        exact AList.lookup_insert_ne hne
      | some existing =>
        rw [receiveAlert_of_lookup_some D env now buffer alert prepared existing hs hp hk] at h
        cases h
        exact AList.lookup_insert_ne hne

theorem receiveAlert_keys (D : Deps) (env : Env) (now : Time) (buffer updated : Buffer)
    (alert : Incoming) (hs : silenced env alert.read = false)
    (h : receiveAlert D env now buffer alert = some updated) :
    updated.keys =
      ingestFingerprint D alert.read :: buffer.keys.erase (ingestFingerprint D alert.read) := by
  cases hp : prepare D env now alert with
  | none =>
    rw [receiveAlert_of_panic D env now buffer alert hs hp] at h
    cases h
  | some prepared =>
    cases hk : buffer.lookup (ingestFingerprint D alert.read) with
    | none =>
      rw [receiveAlert_of_lookup_none D env now buffer alert prepared hs hp hk] at h
      cases h
      rw [AList.keys_insert]
    | some existing =>
      rw [receiveAlert_of_lookup_some D env now buffer alert prepared existing hs hp hk] at h
      cases h
      rw [AList.keys_insert]

theorem receiveAlert_isSome (D : Deps) (env : Env) (now : Time) (buffer : Buffer)
    (alert : Incoming) (prepared : Alert) (hp : prepare D env now alert = some prepared) :
    ∃ updated, receiveAlert D env now buffer alert = some updated := by
  cases hs : silenced env alert.read with
  | true => exact ⟨buffer, receiveAlert_silenced D env now buffer alert hs⟩
  | false =>
    cases hk : buffer.lookup (ingestFingerprint D alert.read) with
    | none => exact ⟨_, receiveAlert_of_lookup_none D env now buffer alert prepared hs hp hk⟩
    | some existing =>
      exact ⟨_, receiveAlert_of_lookup_some D env now buffer alert prepared existing hs hp hk⟩

/-- The witness of C1: the alert of scenario 3 is ingested a second time, at the
second 20, and the call returns; an alert without labels, already buffered, is
ingested again under a default resolve delay, and the call panics. -/
theorem receiveAlerts_existing_frame_witness :
    silenced envPlain (incoming labelsUidA (seconds 700)).read = false ∧
    bufferUidA.lookup
      (ingestFingerprint concreteDeps (incoming labelsUidA (seconds 700)).read) =
      some entryUidA ∧
    (receiveAlerts concreteDeps envPlain (seconds 20) [incoming labelsUidA (seconds 700)]
      bufferUidA).hasPanicked = false ∧
    (receiveAlerts concreteDeps envPlain (seconds 20) [incoming labelsUidA (seconds 700)]
      bufferUidA).buffer.keys.Perm bufferUidA.keys ∧
    silenced envDelay (incomingNoLabels (seconds 700)).read = false ∧
    bufferNoLabels.lookup
      (ingestFingerprint concreteDeps (incomingNoLabels (seconds 700)).read) =
      some entryNoLabels ∧
    (receiveAlerts concreteDeps envDelay (seconds 20) [incomingNoLabels (seconds 700)]
      bufferNoLabels).hasPanicked = true ∧
    (receiveAlerts concreteDeps envDelay (seconds 20) [incomingNoLabels (seconds 700)]
      bufferNoLabels).buffer.keys.Perm bufferNoLabels.keys :=
  ⟨by decide, by decide, by decide,
    (receiveAlerts_existing_frame concreteDeps envPlain (seconds 20) bufferUidA
      (incoming labelsUidA (seconds 700)) entryUidA (by decide) (by decide)).2.2,
    by decide, by decide, by decide,
    (receiveAlerts_existing_frame concreteDeps envDelay (seconds 20) bufferNoLabels
      (incomingNoLabels (seconds 700)) entryNoLabels (by decide) (by decide)).2.2⟩

/-- Two alerts that match no silence, whose labels differ only in the key `uid` and
whose resolve delay does not panic get the same fingerprint from `receiveAlerts`, and
after they are ingested one after the other the buffer holds that fingerprint as one
key, next to the other keys of the buffer, whose entries are untouched. -/
theorem receiveAlerts_uid_same_entry (D : Deps) (env : Env) (t1 t2 : Time) (buffer : Buffer)
    (a1 a2 : Incoming) (p1 p2 : Alert)
    (hs1 : silenced env a1.read = false) (hs2 : silenced env a2.read = false)
    (hp1 : prepare D env t1 a1 = some p1) (hp2 : prepare D env t2 a2 = some p2)
    (huid : a1.read.Labels.erase "uid" = a2.read.Labels.erase "uid") :
    p1.Fingerprint = p2.Fingerprint ∧
    ∃ b1 b2, receiveAlerts D env t1 [a1] buffer = Outcome.returned b1 ∧
      receiveAlerts D env t2 [a2] b1 = Outcome.returned b2 ∧
      b2.keys = ingestFingerprint D a1.read :: buffer.keys.erase (ingestFingerprint D a1.read) ∧
      (∀ k, k ≠ ingestFingerprint D a1.read → b2.lookup k = buffer.lookup k) := by
  have hfp : ingestFingerprint D a2.read = ingestFingerprint D a1.read := by
    unfold ingestFingerprint
    rw [huid]
  obtain ⟨b1, hb1⟩ := receiveAlert_isSome D env t1 buffer a1 p1 hp1
  obtain ⟨b2, hb2⟩ := receiveAlert_isSome D env t2 b1 a2 p2 hp2
  refine ⟨?_, b1, b2, receiveAlerts_singleton_some D env t1 buffer b1 a1 hb1,
    receiveAlerts_singleton_some D env t2 b1 b2 a2 hb2, ?_, ?_⟩
  · rw [prepare_Fingerprint D env t1 a1 p1 hp1, prepare_Fingerprint D env t2 a2 p2 hp2, hfp]
  · rw [receiveAlert_keys D env t2 b1 b2 a2 hs2 hb2,
      receiveAlert_keys D env t1 buffer b1 a1 hs1 hb1, hfp, List.erase_cons_head]
  · intro k hne
    rw [receiveAlert_lookup_ne D env t2 b1 b2 a2 hb2 k (by rw [hfp]; exact hne),
      receiveAlert_lookup_ne D env t1 buffer b1 a1 hb1 k hne]

/-- C6 (as the code behaves). An alert decoded without labels and an alert with the
one label `uid:b` match no silence and differ only in the presence of `uid`. With a
default resolve delay of five minutes configured, `receiveAlerts` panics on the
first one, in the assignment of line 278 to its nil label map: no entry is stored
for it, alone or followed by the second one, and the mutex stays locked. -/
theorem receiveAlerts_uid_nil_labels_panics :
    silenced envDelay (incomingNoLabels (seconds 600)).read = false ∧
    silenced envDelay (incoming (Finmap.singleton "uid" "b") (seconds 600)).read = false ∧
    (incomingNoLabels (seconds 600)).read.Labels.erase "uid" =
      (incoming (Finmap.singleton "uid" "b") (seconds 600)).read.Labels.erase "uid" ∧
    (receiveAlerts concreteDeps envDelay (seconds 10) [incomingNoLabels (seconds 600)]
      ∅).hasPanicked = true ∧
    (receiveAlerts concreteDeps envDelay (seconds 10) [incomingNoLabels (seconds 600)]
      ∅).buffer.keys = [] ∧
    (receiveAlerts concreteDeps envDelay (seconds 10)
      [incomingNoLabels (seconds 600), incoming (Finmap.singleton "uid" "b") (seconds 600)]
      ∅).hasPanicked = true ∧
    (receiveAlerts concreteDeps envDelay (seconds 10)
      [incomingNoLabels (seconds 600), incoming (Finmap.singleton "uid" "b") (seconds 600)]
      ∅).buffer.keys = [] := by
  decide

/-! ## The scan loop -/

theorem foldl_invariant {σ α : Type} (f : σ → α → σ) (P : σ → Prop) (l : List α)
    (hstep : ∀ s b, b ∈ l → P s → P (f s b)) (s0 : σ) (h0 : P s0) : P (l.foldl f s0) := by
  induction l generalizing s0 with
  | nil => exact h0
  | cons b rest ih =>
    rw [List.foldl_cons]
    apply ih
    · intro s c hc hs
      exact hstep s c (List.mem_cons_of_mem _ hc) hs
    · exact hstep s0 b (List.mem_cons_self _ _) h0

theorem foldl_reaches {σ α : Type} (f : σ → α → σ) (Q : σ → Prop) (l : List α) (a : α)
    (ha : a ∈ l) (hat : ∀ s, Q (f s a)) (hkeep : ∀ s b, b ∈ l → Q s → Q (f s b)) (s0 : σ) :
    Q (l.foldl f s0) := by
  induction l generalizing s0 with
  | nil => cases ha
  | cons b rest ih =>
    rw [List.foldl_cons]
    have hkeep2 : ∀ s c, c ∈ rest → Q s → Q (f s c) := fun s c hc hs =>
      hkeep s c (List.mem_cons_of_mem _ hc) hs
    by_cases hmem : a ∈ rest
    · exact ih hmem hkeep2 (f s0 b)
    · have hab : a = b := by
        rcases List.mem_cons.mp ha with h | h
        · exact h
        · exact absurd h hmem
      subst hab
      exact foldl_invariant f Q rest hkeep2 (f s0 a) (hat s0)

/-- What one iteration of the scan appends to `alertsToSend`. -/
theorem scanEntry_alertsToSend (D : Deps) (env : Env) (now : Time) (enrich : Alert → LabelSet)
    (st : ScanState) (a x : Alert) (hx : x ∈ (scanEntry D env now enrich st a).alertsToSend) :
    x ∈ st.alertsToSend ∨
    (x = { a with Status := AlertStatus.Resolved } ∧ a.EndsAt < now ∧
      a.Status ≠ AlertStatus.Pending ∧ DoNotSendResolved ∉ a.Labels) ∨
    (x = { a with Labels := enrich a } ∧ ¬ a.EndsAt < now ∧ a.Status = AlertStatus.Pending) ∨
    (x = a ∧ ¬ a.EndsAt < now ∧ a.Status = AlertStatus.Firing ∧
      ∃ resink, D.ParseDuration env.AF_RESINK_TIME = some resink ∧
        resink < Since now a.LastSinkAt) := by
  unfold scanEntry at hx
  by_cases hexp : a.EndsAt < now
  · by_cases hpend : a.Status = AlertStatus.Pending
    · simp only [hexp, hpend, if_true] at hx
      exact Or.inl hx
    · by_cases hlabel : DoNotSendResolved ∉ a.Labels
      · simp only [hexp, hpend, hlabel, if_true, if_false, not_false_eq_true,
          List.mem_append, List.mem_singleton] at hx
        rcases hx with h | h
        · exact Or.inl h
        · exact Or.inr (Or.inl ⟨h, hexp, hpend, hlabel⟩)
      · simp only [hexp, hpend, hlabel, if_true, if_false] at hx
        exact Or.inl hx
  · simp only [hexp, if_false] at hx
    by_cases hpend : a.Status = AlertStatus.Pending
    · cases hparse : D.ParseDuration env.AF_RESINK_TIME with
      | none =>
        simp only [hpend, hparse, if_true, List.mem_append, List.mem_singleton] at hx
        rcases hx with h | h
        · exact Or.inl h
        · exact Or.inr (Or.inr (Or.inl ⟨by rw [h, hpend], hexp, hpend⟩))
      | some resink =>
        have hno : ¬ (AlertStatus.Pending = AlertStatus.Firing ∧
            resink < Since now a.LastSinkAt) := by
          intro h; cases h.1
        simp only [hpend, hparse, hno, if_true, if_false, List.mem_append,
          List.mem_singleton] at hx
        rcases hx with h | h
        · exact Or.inl h
        · exact Or.inr (Or.inr (Or.inl ⟨by rw [h, hpend], hexp, hpend⟩))
    · cases hparse : D.ParseDuration env.AF_RESINK_TIME with
      | none =>
        simp only [hpend, hparse, if_false] at hx
        exact Or.inl hx
      | some resink =>
        by_cases hfire : a.Status = AlertStatus.Firing ∧ resink < Since now a.LastSinkAt
        · simp only [hpend, hparse, hfire, if_false, if_true, and_self, List.mem_append,
            List.mem_singleton] at hx
          rcases hx with h | h
          · exact Or.inl h
          · exact Or.inr (Or.inr (Or.inr ⟨h, hexp, hfire.1, resink, rfl, hfire.2⟩))
        · simp only [hpend, hparse, hfire, if_false] at hx
          exact Or.inl hx

theorem scanEntry_buffer_of_not_pending (D : Deps) (env : Env) (now : Time)
    (enrich : Alert → LabelSet) (st : ScanState) (a : Alert)
    (hnp : a.Status ≠ AlertStatus.Pending) :
    (scanEntry D env now enrich st a).buffer = st.buffer := by
  unfold scanEntry
  simp only [hnp, if_false]
  split
  · split <;> rfl
  · split
    · split <;> rfl
    · rfl

theorem scanEntry_buffer_expired_pending (D : Deps) (env : Env) (now : Time)
    (enrich : Alert → LabelSet) (st : ScanState) (a : Alert)
    (hexp : a.EndsAt < now) (hp : a.Status = AlertStatus.Pending) :
    (scanEntry D env now enrich st a).buffer = st.buffer.erase a.Fingerprint := by
  unfold scanEntry
  simp only [hexp, hp, if_true]

theorem scanEntry_buffer_live_pending (D : Deps) (env : Env) (now : Time)
    (enrich : Alert → LabelSet) (st : ScanState) (a : Alert)
    (hexp : ¬ a.EndsAt < now) (hp : a.Status = AlertStatus.Pending) :
    (scanEntry D env now enrich st a).buffer =
      st.buffer.insert a.Fingerprint { a with Labels := enrich a } := by
  unfold scanEntry
  simp only [hexp, hp, if_true, if_false]
  split
  · split
    · rename_i h
      cases h.1
    · rfl
  · rfl

theorem scanEntry_lookup_of_ne (D : Deps) (env : Env) (now : Time)
    (enrich : Alert → LabelSet) (st : ScanState) (a : Alert) (k : String)
    (hne : k ≠ a.Fingerprint) :
    (scanEntry D env now enrich st a).buffer.lookup k = st.buffer.lookup k := by
  by_cases hp : a.Status = AlertStatus.Pending
  · by_cases hexp : a.EndsAt < now
    · rw [scanEntry_buffer_expired_pending D env now enrich st a hexp hp]
      exact AList.lookup_erase_ne hne
    · rw [scanEntry_buffer_live_pending D env now enrich st a hexp hp]
      exact AList.lookup_insert_ne hne
  · rw [scanEntry_buffer_of_not_pending D env now enrich st a hp]

theorem scanEntry_alertsToSend_mono (D : Deps) (env : Env) (now : Time)
    (enrich : Alert → LabelSet) (st : ScanState) (a x : Alert)
    (hx : x ∈ st.alertsToSend) : x ∈ (scanEntry D env now enrich st a).alertsToSend := by
  unfold scanEntry
  cases hparse : D.ParseDuration env.AF_RESINK_TIME <;>
    simp only [] <;> split_ifs <;> simp [hx]

theorem scanEntry_alertsToSend_firing (D : Deps) (env : Env) (now : Time)
    (enrich : Alert → LabelSet) (st : ScanState) (a : Alert) (resink : Duration)
    (hparse : D.ParseDuration env.AF_RESINK_TIME = some resink)
    (hf : a.Status = AlertStatus.Firing) (hexp : ¬ a.EndsAt < now)
    (hlate : resink < Since now a.LastSinkAt) :
    a ∈ (scanEntry D env now enrich st a).alertsToSend := by
  have hnp : ¬ a.Status = AlertStatus.Pending := by rw [hf]; intro h; cases h
  have hboth : a.Status = AlertStatus.Firing ∧ resink < Since now a.LastSinkAt := ⟨hf, hlate⟩
  unfold scanEntry
  simp only [hexp, hnp, hparse, hboth, if_false, if_true, and_self]
  exact List.mem_append_right _ (List.mem_singleton_self _)

/-- The snapshot of a buffer lists exactly its entries. -/
theorem mem_snapshot (buffer : Buffer) (a : Alert) :
    a ∈ snapshot buffer ↔ ∃ k, buffer.lookup k = some a := by
  unfold snapshot
  constructor
  · intro h
    rcases List.mem_map.mp h with ⟨x, hx, rfl⟩
    exact ⟨x.1, AList.mem_lookup_iff.mpr hx⟩
  · rintro ⟨k, hk⟩
    exact List.mem_map.mpr ⟨⟨k, a⟩, AList.mem_lookup_iff.mp hk, rfl⟩

theorem WF_lookup (buffer : Buffer) (hwf : WF buffer) (k : String) (e : Alert)
    (hk : buffer.lookup k = some e) : e.Fingerprint = k :=
  hwf ⟨k, e⟩ (AList.mem_lookup_iff.mp hk)

/-- In a well-formed buffer the snapshot entry with fingerprint `k` is the entry
stored under `k`. -/
theorem WF_snapshot_unique (buffer : Buffer) (hwf : WF buffer) (k : String) (e a : Alert)
    (hk : buffer.lookup k = some e) (ha : a ∈ snapshot buffer) (hfp : a.Fingerprint = k) :
    a = e := by
  rcases (mem_snapshot buffer a).mp ha with ⟨k2, hk2⟩
  have h2 : a.Fingerprint = k2 := WF_lookup buffer hwf k2 a hk2
  have hkk : k2 = k := by rw [← h2, hfp]
  rw [hkk, hk] at hk2
  exact (Option.some.inj hk2).symm

/-! ## The outcomes of the sink -/

theorem markAccepted_of_lookup_none (now : Time) (buffer : Buffer) (f : String)
    (h : buffer.lookup f = none) : markAccepted now buffer f = buffer := by
  unfold markAccepted
  rw [h]

theorem markAccepted_of_lookup_some (now : Time) (buffer : Buffer) (f : String) (e : Alert)
    (h : buffer.lookup f = some e) :
    markAccepted now buffer f =
      buffer.insert f
        { (if e.Status = AlertStatus.Firing then e
            else { e with Status := AlertStatus.Firing }) with LastSinkAt := now } := by
  unfold markAccepted
  rw [h]

theorem markAccepted_lookup_ne (now : Time) (buffer : Buffer) (f k : String) (hne : k ≠ f) :
    (markAccepted now buffer f).lookup k = buffer.lookup k := by
  cases h : buffer.lookup f with
  | none => rw [markAccepted_of_lookup_none now buffer f h]
  | some e =>
    rw [markAccepted_of_lookup_some now buffer f e h]
    exact AList.lookup_insert_ne hne

/-- Every entry `markAccepted` leaves under the accepted fingerprint is Firing and
sunk at `now`. -/
theorem markAccepted_self (now : Time) (buffer : Buffer) (f : String) (e2 : Alert)
    (h2 : (markAccepted now buffer f).lookup f = some e2) :
    e2.Status = AlertStatus.Firing ∧ e2.LastSinkAt = now := by
  cases h : buffer.lookup f with
  | none =>
    rw [markAccepted_of_lookup_none now buffer f h, h] at h2
    cases h2
  | some e =>
    rw [markAccepted_of_lookup_some now buffer f e h, AList.lookup_insert] at h2
    cases h2
    by_cases hf : e.Status = AlertStatus.Firing
    · simp [hf]
    · simp [hf]

theorem markAccepted_agree (now : Time) (buffer : Buffer) (f k : String) (e2 : Alert)
    (h2 : (markAccepted now buffer f).lookup k = some e2) :
    ∃ e1, buffer.lookup k = some e1 ∧ AgreeOutsideSink e1 e2 := by
  by_cases hkf : k = f
  · subst hkf
    cases h : buffer.lookup k with
    | none =>
      rw [markAccepted_of_lookup_none now buffer k h, h] at h2
      cases h2
    | some e =>
      rw [markAccepted_of_lookup_some now buffer k e h, AList.lookup_insert] at h2
      cases h2
      refine ⟨e, rfl, ?_⟩
      by_cases hf : e.Status = AlertStatus.Firing
      · simp [AgreeOutsideSink, hf]
      · simp [AgreeOutsideSink, hf]
  · rw [markAccepted_lookup_ne now buffer f k hkf] at h2
    exact ⟨e2, h2, rfl, rfl, rfl, rfl, rfl, rfl⟩

theorem AgreeOutsideSink_trans (e1 e2 e3 : Alert) (h12 : AgreeOutsideSink e1 e2)
    (h23 : AgreeOutsideSink e2 e3) : AgreeOutsideSink e1 e3 := by
  obtain ⟨a1, a2, a3, a4, a5, a6⟩ := h12
  obtain ⟨b1, b2, b3, b4, b5, b6⟩ := h23
  exact ⟨b1.trans a1, b2.trans a2, b3.trans a3, b4.trans a4, b5.trans a5, b6.trans a6⟩

theorem accepted_agree (now : Time) (accepted : List String) (buffer : Buffer) (k : String)
    (e2 : Alert) (h2 : (accepted.foldl (markAccepted now) buffer).lookup k = some e2) :
    ∃ e1, buffer.lookup k = some e1 ∧ AgreeOutsideSink e1 e2 := by
  induction accepted generalizing buffer with
  | nil => exact ⟨e2, h2, rfl, rfl, rfl, rfl, rfl, rfl⟩
  | cons f rest ih =>
    rw [List.foldl_cons] at h2
    obtain ⟨em, hm, hagree⟩ := ih (markAccepted now buffer f) h2
    obtain ⟨e1, h1, hagree1⟩ := markAccepted_agree now buffer f k em hm
    exact ⟨e1, h1, AgreeOutsideSink_trans e1 em e2 hagree1 hagree⟩

theorem accepted_marked (now : Time) (accepted : List String) (buffer : Buffer) (k : String)
    (hk : k ∈ accepted) (e2 : Alert)
    (h2 : (accepted.foldl (markAccepted now) buffer).lookup k = some e2) :
    e2.Status = AlertStatus.Firing ∧ e2.LastSinkAt = now := by
  have hreach := foldl_reaches (markAccepted now)
    (fun b => ∀ e, b.lookup k = some e → e.Status = AlertStatus.Firing ∧ e.LastSinkAt = now)
    accepted k hk (fun b e he => markAccepted_self now b k e he)
    (fun b f _ hb e he => by
      by_cases hkf : k = f
      · subst hkf
        exact markAccepted_self now b k e he
      · rw [markAccepted_lookup_ne now b f k hkf] at he
        exact hb e he)
    buffer
  exact hreach e2 h2

theorem resolved_lookup (resolved : List String) (buffer : Buffer) (k : String) (e : Alert)
    (h : (resolved.foldl (fun b fingerprint => b.erase fingerprint) buffer).lookup k = some e) :
    buffer.lookup k = some e := by
  induction resolved generalizing buffer with
  | nil => exact h
  | cons f rest ih =>
    rw [List.foldl_cons] at h
    have hm := ih (buffer.erase f) h
    by_cases hkf : k = f
    · subst hkf
      rw [AList.lookup_erase] at hm
      cases hm
    · rw [AList.lookup_erase_ne hkf] at hm
      exact hm

theorem applyOutcome_agree (now : Time) (r : SinkResult) (buffer : Buffer) (k : String)
    (e2 : Alert) (h2 : (applyOutcome now r buffer).lookup k = some e2) :
    ∃ e1, buffer.lookup k = some e1 ∧ AgreeOutsideSink e1 e2 :=
  accepted_agree now r.accepted buffer k e2 (resolved_lookup r.resolved _ k e2 h2)

theorem applyOutcome_lookup_none (now : Time) (r : SinkResult) (buffer : Buffer) (k : String)
    (h : buffer.lookup k = none) : (applyOutcome now r buffer).lookup k = none := by
  cases h2 : (applyOutcome now r buffer).lookup k with
  | none => rfl
  | some e2 =>
    obtain ⟨e1, h1, _⟩ := applyOutcome_agree now r buffer k e2 h2
    rw [h] at h1
    cases h1

theorem dispatch_buffer_of_outcome (now : Time) (sink : List Alert → SinkResult)
    (st : ScanState) (r : SinkResult) (h : (dispatch now sink st).outcome = some r) :
    (dispatch now sink st).buffer = applyOutcome now r st.buffer := by
  unfold dispatch at h ⊢
  by_cases hlen : 0 < st.alertsToSend.length
  · simp only [hlen, if_true] at h ⊢
    cases h
    rfl
  · simp only [hlen, if_false] at h
    cases h

theorem dispatch_alertsToSend (now : Time) (sink : List Alert → SinkResult) (st : ScanState) :
    (dispatch now sink st).alertsToSend = st.alertsToSend := by
  unfold dispatch
  split <;> rfl

theorem dispatch_agree (now : Time) (sink : List Alert → SinkResult) (st : ScanState)
    (k : String) (e2 : Alert) (h2 : (dispatch now sink st).buffer.lookup k = some e2) :
    ∃ e1, st.buffer.lookup k = some e1 ∧ AgreeOutsideSink e1 e2 := by
  unfold dispatch at h2
  by_cases hlen : 0 < st.alertsToSend.length
  · simp only [hlen, if_true] at h2
    exact applyOutcome_agree now _ st.buffer k e2 h2
  · simp only [hlen, if_false] at h2
    exact ⟨e2, h2, rfl, rfl, rfl, rfl, rfl, rfl⟩

theorem dispatch_lookup_none (now : Time) (sink : List Alert → SinkResult) (st : ScanState)
    (k : String) (h : st.buffer.lookup k = none) :
    (dispatch now sink st).buffer.lookup k = none := by
  cases h2 : (dispatch now sink st).buffer.lookup k with
  | none => rfl
  | some e2 =>
    obtain ⟨e1, h1, _⟩ := dispatch_agree now sink st k e2 h2
    rw [h] at h1
    cases h1

/-! ## The reconcile pass -/

/-- C2. After a reconcile pass in which the sink was called, every fingerprint the
sink returned in `accepted` that is still a key of the buffer has Status = Firing
and LastSinkAt = the time of the pass, whatever its status was before. -/
theorem ProcessAlertsBuffer_accepted_firing (D : Deps) (env : Env) (now : Time)
    (enrich : Alert → LabelSet) (sink : List Alert → SinkResult) (buffer : Buffer)
    (r : SinkResult)
    (hcalled : (ProcessAlertsBuffer D env now enrich sink buffer).outcome = some r)
    (k : String) (hk : k ∈ r.accepted) (e : Alert)
    (he : (ProcessAlertsBuffer D env now enrich sink buffer).buffer.lookup k = some e) :
    e.Status = AlertStatus.Firing ∧ e.LastSinkAt = now := by
  unfold ProcessAlertsBuffer at hcalled he
  rw [dispatch_buffer_of_outcome now sink _ r hcalled] at he
  exact accepted_marked now r.accepted _ k hk e (resolved_lookup r.resolved _ k e he)

/-- The witness of C2: scenario 1, the pending entry is enriched, sent and accepted
at the second 20. -/
theorem ProcessAlertsBuffer_accepted_firing_witness :
    (ProcessAlertsBuffer concreteDeps envPlain (seconds 20) enrichScreenshot
      (SendAlerts slackOk) bufferUidA).outcome = some ⟨["svc=x"], [], []⟩ ∧
    bufferFiring.lookup "svc=x" = some entryFiring ∧
    entryFiring.Status = AlertStatus.Firing ∧ entryFiring.LastSinkAt = seconds 20 :=
  ⟨by decide, by decide,
    ProcessAlertsBuffer_accepted_firing concreteDeps envPlain (seconds 20) enrichScreenshot
      (SendAlerts slackOk) bufferUidA ⟨["svc=x"], [], []⟩ (by decide) "svc=x" (by decide)
      entryFiring (by decide)⟩

theorem scan_alertsToSend_ne (D : Deps) (env : Env) (now : Time) (enrich : Alert → LabelSet)
    (buffer : Buffer) (hwf : WF buffer) (k : String) (e : Alert)
    (hk : buffer.lookup k = some e) (hp : e.Status = AlertStatus.Pending)
    (hexp : e.EndsAt < now) (entries : List Alert)
    (hsub : ∀ a ∈ entries, a ∈ snapshot buffer) (st : ScanState)
    (h0 : ∀ x ∈ st.alertsToSend, x.Fingerprint ≠ k) :
    ∀ x ∈ (scan D env now enrich entries st).alertsToSend, x.Fingerprint ≠ k := by
  unfold scan
  apply foldl_invariant (scanEntry D env now enrich)
    (fun s => ∀ x ∈ s.alertsToSend, x.Fingerprint ≠ k) entries _ st h0
  intro s a ha hs x hx hxk
  have hae : a.Fingerprint = k → False := by
    intro hfp
    have heq : a = e := WF_snapshot_unique buffer hwf k e a hk (hsub a ha) hfp
    subst heq
    rcases scanEntry_alertsToSend D env now enrich s a x hx with h | h | h | h
    · exact hs x h hxk
    · exact h.2.2.1 hp
    · exact h.2.1 hexp
    · exact h.2.1 hexp
  rcases scanEntry_alertsToSend D env now enrich s a x hx with h | h | h | h
  · exact hs x h hxk
  · apply hae
    rw [← hxk, h.1]
  · apply hae
    rw [← hxk, h.1]
  · apply hae
    rw [← hxk, h.1]

theorem scan_lookup_none (D : Deps) (env : Env) (now : Time) (enrich : Alert → LabelSet)
    (buffer : Buffer) (hwf : WF buffer) (k : String) (e : Alert)
    (hk : buffer.lookup k = some e) (hp : e.Status = AlertStatus.Pending)
    (hexp : e.EndsAt < now) (st : ScanState) :
    (scan D env now enrich (snapshot buffer) st).buffer.lookup k = none := by
  unfold scan
  have hfp : e.Fingerprint = k := WF_lookup buffer hwf k e hk
  apply foldl_reaches (scanEntry D env now enrich) (fun s => s.buffer.lookup k = none)
    (snapshot buffer) e ((mem_snapshot buffer e).mpr ⟨k, hk⟩)
  · intro s
    show (scanEntry D env now enrich s e).buffer.lookup k = none
    rw [scanEntry_buffer_expired_pending D env now enrich s e hexp hp, hfp]
    exact AList.lookup_erase k _
  · intro s a ha hs
    show (scanEntry D env now enrich s a).buffer.lookup k = none
    by_cases hak : a.Fingerprint = k
    · have heq : a = e := WF_snapshot_unique buffer hwf k e a hk ha hak
      subst heq
      rw [scanEntry_buffer_expired_pending D env now enrich s a hexp hp, hfp]
      exact AList.lookup_erase k _
    · rw [scanEntry_lookup_of_ne D env now enrich s a k (fun h => hak h.symm)]
      exact hs

/-- C3. A buffer entry that is Pending and whose `EndsAt` is before `now` when a
reconcile pass examines it is removed from the buffer by that pass, and the batch
passed to the sink holds no alert with its fingerprint. The buffer is one in which
every entry is stored under its own fingerprint, which is the invariant of the data
model and holds in every reachable buffer. -/
theorem ProcessAlertsBuffer_drops_expired_pending (D : Deps) (env : Env) (now : Time)
    (enrich : Alert → LabelSet) (sink : List Alert → SinkResult) (buffer : Buffer)
    (hwf : WF buffer) (k : String) (e : Alert) (hk : buffer.lookup k = some e)
    (hp : e.Status = AlertStatus.Pending) (hexp : e.EndsAt < now) :
    (ProcessAlertsBuffer D env now enrich sink buffer).buffer.lookup k = none ∧
    ∀ x ∈ (ProcessAlertsBuffer D env now enrich sink buffer).alertsToSend,
      x.Fingerprint ≠ k := by
  unfold ProcessAlertsBuffer
  constructor
  · exact dispatch_lookup_none now sink _ k
      (scan_lookup_none D env now enrich buffer hwf k e hk hp hexp _)
  · rw [dispatch_alertsToSend]
    exact scan_alertsToSend_ne D env now enrich buffer hwf k e hk hp hexp (snapshot buffer)
      (fun a ha => ha) _ (fun x hx => by cases hx)

/-- The witness of C3: the pending entry of scenario 3 is examined at the second
700, after it ended. -/
theorem ProcessAlertsBuffer_drops_expired_pending_witness :
    WF bufferUidA ∧ bufferUidA.lookup "svc=x" = some entryUidA ∧
    entryUidA.Status = AlertStatus.Pending ∧ entryUidA.EndsAt < seconds 700 ∧
    (ProcessAlertsBuffer concreteDeps envPlain (seconds 700) enrichScreenshot sinkAll
      bufferUidA).buffer.lookup "svc=x" = none :=
  ⟨by decide, by decide, by decide, by decide,
    (ProcessAlertsBuffer_drops_expired_pending concreteDeps envPlain (seconds 700)
      enrichScreenshot sinkAll bufferUidA (by decide) "svc=x" entryUidA (by decide)
      (by decide) (by decide)).1⟩

/-- C4. In every reconcile pass over every buffer, no alert whose labels contain
`__alertsforge_do_not_send_resolved` is in the batch passed to the sink with
Status = Resolved. -/
theorem ProcessAlertsBuffer_no_suppressed_resolved (D : Deps) (env : Env) (now : Time)
    (enrich : Alert → LabelSet) (sink : List Alert → SinkResult) (buffer : Buffer)
    (x : Alert) (hx : x ∈ (ProcessAlertsBuffer D env now enrich sink buffer).alertsToSend)
    (hlabel : DoNotSendResolved ∈ x.Labels) : x.Status ≠ AlertStatus.Resolved := by
  unfold ProcessAlertsBuffer at hx
  rw [dispatch_alertsToSend] at hx
  have hinv : ∀ y ∈ (scan D env now enrich (snapshot buffer) ⟨buffer, []⟩).alertsToSend,
      DoNotSendResolved ∈ y.Labels → y.Status ≠ AlertStatus.Resolved := by
    unfold scan
    apply foldl_invariant (scanEntry D env now enrich)
      (fun s => ∀ y ∈ s.alertsToSend,
        DoNotSendResolved ∈ y.Labels → y.Status ≠ AlertStatus.Resolved)
    · intro s a _ hs y hy hyl
      rcases scanEntry_alertsToSend D env now enrich s a y hy with h | h | h | h
      · exact hs y h hyl
      · rw [h.1] at hyl
        exact absurd hyl h.2.2.2
      · rw [h.1]
        show a.Status ≠ AlertStatus.Resolved
        rw [h.2.2]
        intro hc
        cases hc
      · rw [h.1, h.2.2.1]
        intro hc
        cases hc
    · intro y hy
      cases hy
  exact hinv x hx hlabel

/-- The witness of C4: the entry of scenario 5 is re-sunk at the second 100, before
it ends; it is in the batch as Firing. -/
theorem ProcessAlertsBuffer_no_suppressed_resolved_witness :
    entryNoResolved ∈ (ProcessAlertsBuffer concreteDeps envPlain (seconds 100)
      enrichScreenshot sinkAll bufferNoResolved).alertsToSend ∧
    DoNotSendResolved ∈ entryNoResolved.Labels ∧
    entryNoResolved.Status ≠ AlertStatus.Resolved :=
  ⟨by decide, by decide,
    ProcessAlertsBuffer_no_suppressed_resolved concreteDeps envPlain (seconds 100)
      enrichScreenshot sinkAll bufferNoResolved entryNoResolved (by decide) (by decide)⟩

/-- C5 (as the code behaves). The entry of scenario 5, Firing and carrying
`__alertsforge_do_not_send_resolved`, is examined at the second 700, after it ended
at the second 600: whatever the sink, nothing is enqueued, the sink is not called,
and the entry is still in the buffer, unchanged. -/
theorem ProcessAlertsBuffer_suppressed_resolved_stays :
    ∀ sink : List Alert → SinkResult,
      (ProcessAlertsBuffer concreteDeps envPlain (seconds 700) enrichScreenshot sink
        bufferNoResolved).alertsToSend = [] ∧
      (ProcessAlertsBuffer concreteDeps envPlain (seconds 700) enrichScreenshot sink
        bufferNoResolved).outcome = none ∧
      (ProcessAlertsBuffer concreteDeps envPlain (seconds 700) enrichScreenshot sink
        bufferNoResolved).buffer.lookup "quiet" = some entryNoResolved := by
  intro sink
  have hbatch : (scan concreteDeps envPlain (seconds 700) enrichScreenshot
      (snapshot bufferNoResolved) ⟨bufferNoResolved, []⟩).alertsToSend = [] := by decide
  have hlive : (scan concreteDeps envPlain (seconds 700) enrichScreenshot
      (snapshot bufferNoResolved) ⟨bufferNoResolved, []⟩).buffer.lookup "quiet"
        = some entryNoResolved := by decide
  unfold ProcessAlertsBuffer dispatch
  simp only [hbatch, List.length_nil, lt_irrefl, if_false]
  exact ⟨trivial, trivial, hlive⟩

/-- C7 as stated fails on the boundary. With the re-sink interval of 30 seconds, the
entry of scenario 3, Firing, sunk at the second 20 and ending at the second 600, is
examined at the second 50, which is `LastSinkAt + R` exactly: it is not put in the
batch. -/
theorem ProcessAlertsBuffer_resink_boundary_counterexample :
    concreteDeps.ParseDuration envPlain.AF_RESINK_TIME = some (seconds 30) ∧
    bufferFiring.lookup "svc=x" = some entryFiring ∧
    entryFiring.Status = AlertStatus.Firing ∧ ¬ entryFiring.EndsAt < seconds 50 ∧
    entryFiring.LastSinkAt + seconds 30 ≤ seconds 50 ∧
    entryFiring ∉ (ProcessAlertsBuffer concreteDeps envPlain (seconds 50) enrichScreenshot
      sinkAll bufferFiring).alertsToSend := by
  decide

/-- C7, amended. With a parseable re-sink interval `R` configured, every buffer
entry with Status = Firing whose `EndsAt` has not passed is put in the sink batch by
every reconcile pass for which `time.Since(LastSinkAt)` is strictly greater than `R`:
`now - LastSinkAt > R`, the difference saturating at the largest duration as in Go. -/
theorem ProcessAlertsBuffer_resinks_after_interval (D : Deps) (env : Env) (now : Time)
    (enrich : Alert → LabelSet) (sink : List Alert → SinkResult) (buffer : Buffer)
    (R : Duration) (hparse : D.ParseDuration env.AF_RESINK_TIME = some R)
    (k : String) (e : Alert) (hk : buffer.lookup k = some e)
    (hf : e.Status = AlertStatus.Firing) (hexp : ¬ e.EndsAt < now)
    (hlate : R < Since now e.LastSinkAt) :
    e ∈ (ProcessAlertsBuffer D env now enrich sink buffer).alertsToSend := by
  unfold ProcessAlertsBuffer
  rw [dispatch_alertsToSend]
  unfold scan
  exact foldl_reaches (scanEntry D env now enrich) (fun s => e ∈ s.alertsToSend)
    (snapshot buffer) e ((mem_snapshot buffer e).mpr ⟨k, hk⟩)
    (fun s => scanEntry_alertsToSend_firing D env now enrich s e R hparse hf hexp hlate)
    (fun s a _ hs => scanEntry_alertsToSend_mono D env now enrich s a e hs) _

/-- The witness of C7 amended: scenario 6, the entry sunk at the second 20 is
examined at the second 51. -/
theorem ProcessAlertsBuffer_resinks_after_interval_witness :
    concreteDeps.ParseDuration envPlain.AF_RESINK_TIME = some (seconds 30) ∧
    bufferFiring.lookup "svc=x" = some entryFiring ∧
    entryFiring.Status = AlertStatus.Firing ∧ ¬ entryFiring.EndsAt < seconds 51 ∧
    seconds 30 < Since (seconds 51) entryFiring.LastSinkAt ∧
    entryFiring ∈ (ProcessAlertsBuffer concreteDeps envPlain (seconds 51) enrichScreenshot
      sinkAll bufferFiring).alertsToSend :=
  ⟨by decide, by decide, by decide, by decide, by decide,
    ProcessAlertsBuffer_resinks_after_interval concreteDeps envPlain (seconds 51)
      enrichScreenshot sinkAll bufferFiring (seconds 30) (by decide) "svc=x" entryFiring
      (by decide) (by decide) (by decide) (by decide)⟩

/-! ## The Slack sink: which send decides -/

/-- C8 (as the code behaves). An alert whose channel template renders to the targets
`alerts,oncall`: the send to `alerts` succeeds and the send to `oncall` fails. Its
fingerprint is reported neither in `accepted` nor in `resolved`. With the same two
targets in the other order it is reported in `accepted`: the last send decides. -/
theorem SendAlerts_last_target_decides :
    RemoveDuplicateFromSlice (Split "alerts,oncall" ',') = ["alerts", "oncall"] ∧
    slackLastFails.SendMessage "alerts" (slackLastFails.MustTemplateMessage entryUidA)
      = none ∧
    SendAlerts slackLastFails [entryUidA] = ⟨[], [], ["channel_not_found"]⟩ ∧
    SendAlerts slackFirstFails [entryUidA] = ⟨["svc=x"], [], ["channel_not_found"]⟩ := by
  decide

/-! ## The invariant of the buffer -/

theorem WF_iff_lookup (buffer : Buffer) :
    WF buffer ↔ ∀ k e, buffer.lookup k = some e → e.Fingerprint = k := by
  constructor
  · intro hwf k e hk
    exact WF_lookup buffer hwf k e hk
  · intro h x hx
    exact h x.1 x.2 (AList.mem_lookup_iff.mpr hx)

theorem WF_insert (buffer : Buffer) (hwf : WF buffer) (k : String) (e : Alert)
    (he : e.Fingerprint = k) : WF (buffer.insert k e) := by
  rw [WF_iff_lookup] at hwf ⊢
  intro k2 e2 h2
  by_cases hkk : k2 = k
  · subst hkk
    rw [AList.lookup_insert] at h2
    cases h2
    exact he
  · rw [AList.lookup_insert_ne hkk] at h2
    exact hwf k2 e2 h2

theorem WF_erase (buffer : Buffer) (hwf : WF buffer) (k : String) : WF (buffer.erase k) := by
  rw [WF_iff_lookup] at hwf ⊢
  intro k2 e2 h2
  by_cases hkk : k2 = k
  · subst hkk
    rw [AList.lookup_erase] at h2
    cases h2
  · rw [AList.lookup_erase_ne hkk] at h2
    exact hwf k2 e2 h2

theorem WF_receiveAlert (D : Deps) (env : Env) (now : Time) (buffer updated : Buffer)
    (alert : Incoming) (h : receiveAlert D env now buffer alert = some updated)
    (hwf : WF buffer) : WF updated := by
  cases hs : silenced env alert.read with
  | true =>
    rw [receiveAlert_silenced D env now buffer alert hs] at h
    cases h
    exact hwf
  | false =>
    cases hp : prepare D env now alert with
    | none =>
      rw [receiveAlert_of_panic D env now buffer alert hs hp] at h
      cases h
    | some prepared =>
      cases hk : buffer.lookup (ingestFingerprint D alert.read) with
      | none =>
        rw [receiveAlert_of_lookup_none D env now buffer alert prepared hs hp hk] at h
        cases h
        exact WF_insert buffer hwf _ _ (prepare_Fingerprint D env now alert prepared hp)
      | some existing =>
        rw [receiveAlert_of_lookup_some D env now buffer alert prepared existing hs hp hk] at h
        cases h
        exact WF_insert buffer hwf _ _ (WF_lookup buffer hwf _ existing hk)

/-- A property of buffers that every completed iteration of `receiveAlerts` keeps
holds of the buffer the call leaves, whether it returns or panics. -/
theorem receiveAlerts_invariant (D : Deps) (env : Env) (now : Time) (P : Buffer → Prop)
    (hstep : ∀ b u a, receiveAlert D env now b a = some u → P b → P u)
    (alerts : List Incoming) (buffer : Buffer) (h0 : P buffer) :
    P (receiveAlerts D env now alerts buffer).buffer := by
  induction alerts generalizing buffer with
  | nil => exact h0
  | cons a rest ih =>
    unfold receiveAlerts
    cases h : receiveAlert D env now buffer a with
    | none => exact h0
    | some updated => exact ih updated (hstep buffer updated a h h0)

theorem WF_receiveAlerts (D : Deps) (env : Env) (now : Time) (alerts : List Incoming)
    (buffer : Buffer) (hwf : WF buffer) :
    WF (receiveAlerts D env now alerts buffer).buffer :=
  receiveAlerts_invariant D env now WF
    (fun b u a h hb => WF_receiveAlert D env now b u a h hb) alerts buffer hwf

theorem WF_scanEntry (D : Deps) (env : Env) (now : Time) (enrich : Alert → LabelSet)
    (st : ScanState) (a : Alert) (hwf : WF st.buffer) :
    WF (scanEntry D env now enrich st a).buffer := by
  by_cases hp : a.Status = AlertStatus.Pending
  · by_cases hexp : a.EndsAt < now
    · rw [scanEntry_buffer_expired_pending D env now enrich st a hexp hp]
      exact WF_erase st.buffer hwf _
    · rw [scanEntry_buffer_live_pending D env now enrich st a hexp hp]
      exact WF_insert st.buffer hwf _ _ rfl
  · rw [scanEntry_buffer_of_not_pending D env now enrich st a hp]
    exact hwf

theorem WF_scan (D : Deps) (env : Env) (now : Time) (enrich : Alert → LabelSet)
    (entries : List Alert) (st : ScanState) (hwf : WF st.buffer) :
    WF (scan D env now enrich entries st).buffer := by
  unfold scan
  exact foldl_invariant (scanEntry D env now enrich) (fun s => WF s.buffer) entries
    (fun s a _ hs => WF_scanEntry D env now enrich s a hs) st hwf

theorem WF_markAccepted (now : Time) (buffer : Buffer) (f : String) (hwf : WF buffer) :
    WF (markAccepted now buffer f) := by
  cases h : buffer.lookup f with
  | none => rw [markAccepted_of_lookup_none now buffer f h]; exact hwf
  | some e =>
    rw [markAccepted_of_lookup_some now buffer f e h]
    apply WF_insert buffer hwf
    have hfp : e.Fingerprint = f := WF_lookup buffer hwf f e h
    by_cases hf : e.Status = AlertStatus.Firing
    · simp [hf, hfp]
    · simp [hf, hfp]

theorem WF_applyOutcome (now : Time) (r : SinkResult) (buffer : Buffer) (hwf : WF buffer) :
    WF (applyOutcome now r buffer) := by
  unfold applyOutcome
  apply foldl_invariant (fun (b : Buffer) fingerprint => b.erase fingerprint) WF r.resolved
    (fun b f _ hb => WF_erase b hb f)
  exact foldl_invariant (markAccepted now) WF r.accepted
    (fun b f _ hb => WF_markAccepted now b f hb) buffer hwf

theorem WF_dispatch (now : Time) (sink : List Alert → SinkResult) (st : ScanState)
    (hwf : WF st.buffer) : WF (dispatch now sink st).buffer := by
  unfold dispatch
  split
  · exact WF_applyOutcome now _ st.buffer hwf
  · exact hwf

theorem WF_ProcessAlertsBuffer (D : Deps) (env : Env) (now : Time)
    (enrich : Alert → LabelSet) (sink : List Alert → SinkResult) (buffer : Buffer)
    (hwf : WF buffer) : WF (ProcessAlertsBuffer D env now enrich sink buffer).buffer := by
  unfold ProcessAlertsBuffer
  exact WF_dispatch now sink _ (WF_scan D env now enrich _ _ hwf)

theorem keys_insert_all (G : String → Prop) (buffer : Buffer) (k0 : String) (v : Alert)
    (hall : ∀ k ∈ buffer.keys, G k) (h0 : G k0) : ∀ k ∈ (buffer.insert k0 v).keys, G k := by
  intro k hk
  rw [← AList.mem_keys, AList.mem_insert] at hk
  rcases hk with h | h
  · rw [h]; exact h0
  · exact hall k (AList.mem_keys.mp h)

theorem keys_erase_all (G : String → Prop) (buffer : Buffer) (k0 : String)
    (hall : ∀ k ∈ buffer.keys, G k) : ∀ k ∈ (buffer.erase k0).keys, G k := by
  intro k hk
  rw [← AList.mem_keys, AList.mem_erase] at hk
  exact hall k (AList.mem_keys.mp hk.2)

theorem keys_receiveAlert (D : Deps) (env : Env) (now : Time) (buffer updated : Buffer)
    (alert : Incoming) (h : receiveAlert D env now buffer alert = some updated)
    (hall : KeysFromIngest D buffer) : KeysFromIngest D updated := by
  cases hs : silenced env alert.read with
  | true =>
    rw [receiveAlert_silenced D env now buffer alert hs] at h
    cases h
    exact hall
  | false =>
    have h0 : ∃ labels : LabelSet,
        ingestFingerprint D alert.read = D.LabelSetToFingerprint (labels.erase "uid") :=
      ⟨alert.read.Labels, rfl⟩
    cases hp : prepare D env now alert with
    | none =>
      rw [receiveAlert_of_panic D env now buffer alert hs hp] at h
      cases h
    | some prepared =>
      cases hk : buffer.lookup (ingestFingerprint D alert.read) with
      | none =>
        rw [receiveAlert_of_lookup_none D env now buffer alert prepared hs hp hk] at h
        cases h
        exact keys_insert_all _ buffer _ _ hall h0
      | some existing =>
        rw [receiveAlert_of_lookup_some D env now buffer alert prepared existing hs hp hk] at h
        cases h
        exact keys_insert_all _ buffer _ _ hall h0

theorem keys_scanEntry (G : String → Prop) (D : Deps) (env : Env) (now : Time)
    (enrich : Alert → LabelSet) (st : ScanState) (a : Alert) (ha : G a.Fingerprint)
    (hall : ∀ k ∈ st.buffer.keys, G k) :
    ∀ k ∈ (scanEntry D env now enrich st a).buffer.keys, G k := by
  by_cases hp : a.Status = AlertStatus.Pending
  · by_cases hexp : a.EndsAt < now
    · rw [scanEntry_buffer_expired_pending D env now enrich st a hexp hp]
      exact keys_erase_all G st.buffer _ hall
    · rw [scanEntry_buffer_live_pending D env now enrich st a hexp hp]
      exact keys_insert_all G st.buffer _ _ hall ha
  · rw [scanEntry_buffer_of_not_pending D env now enrich st a hp]
    exact hall

theorem keys_markAccepted (G : String → Prop) (now : Time) (buffer : Buffer) (f : String)
    (hall : ∀ k ∈ buffer.keys, G k) : ∀ k ∈ (markAccepted now buffer f).keys, G k := by
  cases h : buffer.lookup f with
  | none => rw [markAccepted_of_lookup_none now buffer f h]; exact hall
  | some e =>
    rw [markAccepted_of_lookup_some now buffer f e h]
    apply keys_insert_all G buffer _ _ hall
    apply hall f
    rw [← AList.mem_keys, ← AList.lookup_isSome, h]
    rfl

theorem keys_dispatch (G : String → Prop) (now : Time) (sink : List Alert → SinkResult)
    (st : ScanState) (hall : ∀ k ∈ st.buffer.keys, G k) :
    ∀ k ∈ (dispatch now sink st).buffer.keys, G k := by
  unfold dispatch
  split
  · show ∀ k ∈ (applyOutcome now (sink st.alertsToSend) st.buffer).keys, G k
    unfold applyOutcome
    apply foldl_invariant (fun (b : Buffer) fingerprint => b.erase fingerprint)
      (fun b => ∀ k ∈ b.keys, G k) _ (fun b f _ hb => keys_erase_all G b f hb)
    exact foldl_invariant (markAccepted now) (fun b => ∀ k ∈ b.keys, G k) _
      (fun b f _ hb => keys_markAccepted G now b f hb) st.buffer hall
  · exact hall

theorem keys_ProcessAlertsBuffer (D : Deps) (env : Env) (now : Time)
    (enrich : Alert → LabelSet) (sink : List Alert → SinkResult) (buffer : Buffer)
    (hwf : WF buffer) (hall : KeysFromIngest D buffer) :
    KeysFromIngest D (ProcessAlertsBuffer D env now enrich sink buffer).buffer := by
  unfold ProcessAlertsBuffer
  apply keys_dispatch
  unfold scan
  apply foldl_invariant (scanEntry D env now enrich)
    (fun s => ∀ k ∈ s.buffer.keys,
      ∃ labels : LabelSet, k = D.LabelSetToFingerprint (labels.erase "uid"))
  · intro s a ha hs
    apply keys_scanEntry _ D env now enrich s a _ hs
    rcases (mem_snapshot buffer a).mp ha with ⟨k, hk⟩
    rw [WF_lookup buffer hwf k a hk]
    apply hall k
    rw [← AList.mem_keys, ← AList.lookup_isSome, hk]
    rfl
  · exact hall

theorem Reachable_invariant (D : Deps) (buffer : Buffer) (h : Reachable D buffer) :
    WF buffer ∧ KeysFromIngest D buffer := by
  induction h with
  | empty =>
    constructor
    · intro x hx
      cases hx
    · intro k hk
      cases hk
  | receive env now alerts buffer _ ih =>
    constructor
    · exact WF_receiveAlerts D env now alerts buffer ih.1
    · exact receiveAlerts_invariant D env now (KeysFromIngest D)
        (fun b u a h hb => keys_receiveAlert D env now b u a h hb) alerts buffer ih.2
  | process env now enrich sink buffer _ ih =>
    exact ⟨WF_ProcessAlertsBuffer D env now enrich sink buffer ih.1,
      keys_ProcessAlertsBuffer D env now enrich sink buffer ih.1 ih.2⟩

/-- C9 as stated fails. The buffer reached from the empty buffer by the ingest of
scenario 4 (labels `svc:x`, default resolve delay of five minutes) stores its entry
under the fingerprint of `svc:x`, while the labels of the entry hold
`alertsForge_delayed_resolve` as well: the key is not the fingerprint of the labels
of the entry without `uid`. -/
theorem Reachable_key_is_label_fingerprint_counterexample :
    Reachable concreteDeps bufferDelayed ∧
    bufferDelayed.lookup "svc=x" = some entryDelayed ∧
    ¬ KeyIsLabelFingerprint concreteDeps bufferDelayed :=
  ⟨Reachable.receive envDelay (seconds 10)
      [incoming (Finmap.singleton "svc" "x") (seconds 600)] ∅ Reachable.empty,
    by decide, by decide⟩

/-- C9, amended. In every buffer reachable from the empty buffer by calls of
`receiveAlerts` and `ProcessAlertsBuffer`, every entry `e` stored under key `k` has
`e.Fingerprint = k`, and `k` is the fingerprint, as computed at ingest, of a label
set with the key `uid` removed (the labels as they were received; the labels of the
stored entry may hold `alertsForge_delayed_resolve` and enrichment labels in
addition). -/
theorem Reachable_key_is_entry_fingerprint (D : Deps) (buffer : Buffer)
    (h : Reachable D buffer) (k : String) (e : Alert) (hk : buffer.lookup k = some e) :
    e.Fingerprint = k ∧
    ∃ labels : LabelSet, k = D.LabelSetToFingerprint (labels.erase "uid") := by
  obtain ⟨hwf, hkeys⟩ := Reachable_invariant D buffer h
  refine ⟨WF_lookup buffer hwf k e hk, hkeys k ?_⟩
  rw [← AList.mem_keys, ← AList.lookup_isSome, hk]
  rfl

/-- The witness of C9 amended: the buffer of scenario 4. -/
theorem Reachable_key_is_entry_fingerprint_witness :
    Reachable concreteDeps bufferDelayed ∧
    bufferDelayed.lookup "svc=x" = some entryDelayed ∧
    entryDelayed.Fingerprint = "svc=x" :=
  ⟨Reachable.receive envDelay (seconds 10)
      [incoming (Finmap.singleton "svc" "x") (seconds 600)] ∅ Reachable.empty,
    by decide,
    (Reachable_key_is_entry_fingerprint concreteDeps bufferDelayed
      (Reachable.receive envDelay (seconds 10)
        [incoming (Finmap.singleton "svc" "x") (seconds 600)] ∅ Reachable.empty)
      "svc=x" entryDelayed (by decide)).1⟩

/-! ## An ingest during a reconcile pass -/

/-- The scan of snapshot entries leaves alone the live entry of a fingerprint whose
snapshot entry is not Pending. -/
theorem scan_lookup_frame (D : Deps) (env : Env) (now : Time) (enrich : Alert → LabelSet)
    (buffer : Buffer) (hwf : WF buffer) (k : String) (e0 : Alert)
    (hk : buffer.lookup k = some e0) (hnp : e0.Status ≠ AlertStatus.Pending)
    (entries : List Alert) (hsub : ∀ a ∈ entries, a ∈ snapshot buffer) (st : ScanState) :
    (scan D env now enrich entries st).buffer.lookup k = st.buffer.lookup k := by
  unfold scan
  apply foldl_invariant (scanEntry D env now enrich)
    (fun s => s.buffer.lookup k = st.buffer.lookup k) entries _ st rfl
  intro s a ha hs
  show (scanEntry D env now enrich s a).buffer.lookup k = st.buffer.lookup k
  by_cases hak : a.Fingerprint = k
  · have heq : a = e0 := WF_snapshot_unique buffer hwf k e0 a hk (hsub a ha) hak
    subst heq
    rw [scanEntry_buffer_of_not_pending D env now enrich s a hnp]
    exact hs
  · rw [scanEntry_lookup_of_ne D env now enrich s a k (fun h => hak h.symm)]
    exact hs

/-- C10 as stated fails for an entry that is Pending in the snapshot. The pending
entry of scenario 3 ends at the second 600 and was received at the second 10. A pass
takes its snapshot; an ingest at the second 15 then moves the end of the live entry
to the second 900; the pass, reading the clock at the second 20, writes its enriched
snapshot copy back and the sink accepts it. At the end of the pass the live entry
ends at the second 600 and was received at the second 10: the ingest is lost. -/
theorem ProcessAlertsBufferInterleaved_pending_counterexample :
    bufferUidA.lookup "svc=x" = some entryUidA ∧
    entryUidA.Status = AlertStatus.Pending ∧
    (receiveAlerts concreteDeps envPlain (seconds 15) [incoming labelsUidA (seconds 900)]
      bufferUidA).hasPanicked = false ∧
    (receiveAlerts concreteDeps envPlain (seconds 15) [incoming labelsUidA (seconds 900)]
      bufferUidA).buffer.lookup "svc=x" =
      some { entryUidA with EndsAt := seconds 900, LastReceiveAt := seconds 15 } ∧
    (ProcessAlertsBufferInterleaved concreteDeps envPlain (seconds 20) enrichScreenshot
      (SendAlerts slackOk) 0 (seconds 15) [incoming labelsUidA (seconds 900)]
      bufferUidA).map (fun res => res.buffer.lookup "svc=x") = some (some entryFiring) ∧
    entryFiring.EndsAt = seconds 600 ∧ entryFiring.LastReceiveAt = seconds 10 := by
  decide

/-- C10, amended. If `receiveAlerts` upserts an already-buffered fingerprint after a
reconcile pass has taken its snapshot (at any point of the scan, or after it) and
before the pass writes the outcome of the sink back, and the entry of that
fingerprint is not Pending in the snapshot, then the live entry at the end of the
pass, if the pass has not deleted it, has the `EndsAt` and `LastReceiveAt` set by
that ingest, and the Labels, Annotations, StartsAt and Fingerprint it had: the pass
rewrites only Status and LastSinkAt. -/
theorem ProcessAlertsBufferInterleaved_keeps_ingest (D : Deps) (env : Env) (now : Time)
    (enrich : Alert → LabelSet) (sink : List Alert → SinkResult) (p : Nat) (tIngest : Time)
    (alert : Incoming) (buffer : Buffer) (hwf : WF buffer) (k : String) (e0 : Alert)
    (hk : buffer.lookup k = some e0) (hnp : e0.Status ≠ AlertStatus.Pending)
    (hs : silenced env alert.read = false) (hfp : ingestFingerprint D alert.read = k)
    (res : PassResult)
    (hres : ProcessAlertsBufferInterleaved D env now enrich sink p tIngest [alert] buffer
      = some res)
    (e2 : Alert) (h2 : res.buffer.lookup k = some e2) :
    ∃ prepared, prepare D env tIngest alert = some prepared ∧
      e2.EndsAt = prepared.EndsAt ∧ e2.LastReceiveAt = tIngest ∧
      e2.Labels = e0.Labels ∧ e2.Annotations = e0.Annotations ∧
      e2.StartsAt = e0.StartsAt ∧ e2.Fingerprint = e0.Fingerprint := by
  have hbefore : (scan D env now enrich ((snapshot buffer).take p) ⟨buffer, []⟩).buffer.lookup
      (ingestFingerprint D alert.read) = some e0 := by
    rw [hfp, scan_lookup_frame D env now enrich buffer hwf k e0 hk hnp _
      (fun a ha => List.mem_of_mem_take ha)]
    exact hk
  unfold ProcessAlertsBufferInterleaved at hres
  simp only [] at hres
  cases hp : prepare D env tIngest alert with
  | none =>
    rw [receiveAlerts_singleton_none D env tIngest _ alert
      (receiveAlert_of_panic D env tIngest _ alert hs hp)] at hres
    cases hres
  | some prepared =>
    rw [receiveAlerts_singleton_some D env tIngest _ _ alert
      (receiveAlert_of_lookup_some D env tIngest _ alert prepared e0 hs hp hbefore)] at hres
    simp only [Option.some.injEq] at hres
    subst hres
    obtain ⟨e1, h1, hagree⟩ := dispatch_agree now sink _ k e2 h2
    rw [scan_lookup_frame D env now enrich buffer hwf k e0 hk hnp _
      (fun a ha => List.mem_of_mem_drop ha)] at h1
    simp only [] at h1
    rw [hfp, AList.lookup_insert] at h1
    cases h1
    obtain ⟨a1, a2, a3, a4, a5, a6⟩ := hagree
    exact ⟨prepared, rfl, a4, a6, a1, a2, a3, a5⟩

/-- The witness of C10 amended: the Firing entry of scenario 3, sunk at the second
20, is upserted during the pass of the second 51, after the scan has enqueued it
and before the sink accepts it. -/
theorem ProcessAlertsBufferInterleaved_keeps_ingest_witness :
    WF bufferFiring ∧ bufferFiring.lookup "svc=x" = some entryFiring ∧
    entryFiring.Status ≠ AlertStatus.Pending ∧
    silenced envPlain (incoming labelsUidA (seconds 900)).read = false ∧
    ingestFingerprint concreteDeps (incoming labelsUidA (seconds 900)).read = "svc=x" ∧
    ProcessAlertsBufferInterleaved concreteDeps envPlain (seconds 51) enrichScreenshot
      sinkAll 1 (seconds 51) [incoming labelsUidA (seconds 900)] bufferFiring
      = some passResunk ∧
    passResunk.buffer.lookup "svc=x" = some entryResunk ∧
    ∃ prepared,
      prepare concreteDeps envPlain (seconds 51) (incoming labelsUidA (seconds 900))
        = some prepared ∧
      entryResunk.EndsAt = prepared.EndsAt ∧ entryResunk.LastReceiveAt = seconds 51 ∧
      entryResunk.Labels = entryFiring.Labels ∧
      entryResunk.Annotations = entryFiring.Annotations ∧
      entryResunk.StartsAt = entryFiring.StartsAt ∧
      entryResunk.Fingerprint = entryFiring.Fingerprint :=
  ⟨by decide, by decide, by decide, by decide, by decide, rfl, by decide,
    ProcessAlertsBufferInterleaved_keeps_ingest concreteDeps envPlain (seconds 51)
      enrichScreenshot sinkAll 1 (seconds 51) (incoming labelsUidA (seconds 900))
      bufferFiring (by decide) "svc=x" entryFiring (by decide) (by decide) (by decide)
      (by decide) passResunk rfl entryResunk (by decide)⟩

end AlertsForge
